import Mathlib

/-!
# data-validation-engine: a verification development

Shallow embedding of `src/data-validation-engine.js` (the rule evaluation
core: value coercion, dot-path access, the operator set, typed right-hand
sides, the rule condition, the two rule executors, the log summary and the
rule loop of the input handler), followed by theorems about it.

Value domain.  JavaScript values are modelled by `JsVal`: `undefined`,
`null`, booleans, numbers, strings, arrays and plain objects (an object is
the list of its own enumerable properties, in enumeration order).  Numbers
are `NaN` or an integer (integer-valued doubles of magnitude below 2^53);
strings are sequences of Unicode scalar values.

The first part reads the data by own properties only and takes the level of
a rule as a string or absent; there no call throws.  The section "Inherited
members and raised errors" embeds the same functions with the members that a
data value inherits from its built-in prototype and with the errors the
source raises on them and on a level that is not a string.
-/

namespace DataValidationEngine

/-! ## Values -/

/-- A JavaScript number of the model: `NaN` or an integer. -/
inductive JsNum where
  | nan
  | int (i : Int)
  deriving Repr, DecidableEq

/-- A JavaScript value of the model. -/
inductive JsVal where
  | undefined
  | null
  | bool (b : Bool)
  | num (n : JsNum)
  | str (s : String)
  | arr (xs : List JsVal)
  | obj (kvs : List (String × JsVal))

namespace JsVal

/-- The test `v === undefined`. -/
def isUndefined : JsVal → Bool
  | undefined => true
  | _ => false

/-- The test `v === s` against a string literal `s`. -/
def isStr (v : JsVal) (s : String) : Bool :=
  match v with
  | str t => t == s
  | _ => false

/-- JavaScript truthiness (`ToBoolean`). -/
def truthy : JsVal → Bool
  | undefined => false
  | null => false
  | bool b => b
  | num .nan => false
  | num (.int i) => i != 0
  | str s => s != ""
  | arr _ => true
  | obj _ => true

/-- The operator `a || b` on values. -/
def or (a b : JsVal) : JsVal := if a.truthy then a else b

/-- The test `Array.isArray(v)`. -/
def isArray : JsVal → Bool
  | arr _ => true
  | _ => false

/-- The test `typeof v === "object"` (true of `null`, arrays and objects). -/
def typeofObject : JsVal → Bool
  | null => true
  | arr _ => true
  | obj _ => true
  | _ => false

end JsVal

/-! ## Strings -/

/-- Decimal text of an integer, as `Number.prototype.toString` prints it. -/
def intToString : Int → String
  | .ofNat n => Nat.repr n
  | .negSucc n => "-" ++ Nat.repr (n + 1)

/-- The text of a number under `String(n)`. -/
def numToString : JsNum → String
  | .nan => "NaN"
  | .int i => intToString i

/-- Joins texts with a separator (`Array.prototype.join`). -/
def joinWith (sep : String) : List String → String
  | [] => ""
  | [s] => s
  | s :: t => s ++ sep ++ joinWith sep t

mutual
/-- The conversion `String(v)`, also used by template literals and by
property keys. -/
def jsToString : JsVal → String
  | .undefined => "undefined"
  | .null => "null"
  | .bool b => if b then "true" else "false"
  | .num n => numToString n
  | .str s => s
  | .arr xs => joinWith "," (jsToStringElems xs)
  | .obj _ => "[object Object]"
/-- The element texts of `Array.prototype.join`: `null` and `undefined`
elements print as the empty text. -/
def jsToStringElems : List JsVal → List String
  | [] => []
  | .undefined :: t => "" :: jsToStringElems t
  | .null :: t => "" :: jsToStringElems t
  | v :: t => jsToString v :: jsToStringElems t
end

/-- Lower-case hexadecimal digit of a number below sixteen. -/
def hexDigit (n : Nat) : Char :=
  if n < 10 then Char.ofNat (48 + n) else Char.ofNat (87 + n)

/-- The escape of one character inside a JSON string (`QuoteJSONString`). -/
def quoteChar (c : Char) : List Char :=
  if c = '"' then ['\\', '"']
  else if c = '\\' then ['\\', '\\']
  else if c.toNat = 8 then ['\\', 'b']
  else if c.toNat = 12 then ['\\', 'f']
  else if c.toNat = 10 then ['\\', 'n']
  else if c.toNat = 13 then ['\\', 'r']
  else if c.toNat = 9 then ['\\', 't']
  else if c.toNat < 32 then
    ['\\', 'u', '0', '0', hexDigit (c.toNat / 16), hexDigit (c.toNat % 16)]
  else [c]

/-- A string as JSON text: quoted, with the JSON escapes. -/
def quoteJSONString (s : String) : String :=
  String.mk ('"' :: (s.data.flatMap quoteChar ++ ['"']))

mutual
/-- The call `JSON.stringify(v)`; `none` stands for the result `undefined`
(which only `undefined` itself produces in this domain).  `NaN` prints as
`null`. -/
def jsonStringify : JsVal → Option String
  | .undefined => none
  | .null => some "null"
  | .bool b => some (if b then "true" else "false")
  | .num .nan => some "null"
  | .num (.int i) => some (intToString i)
  | .str s => some (quoteJSONString s)
  | .arr xs => some ("[" ++ joinWith "," (jsonElems xs) ++ "]")
  | .obj kvs => some ("\x7b" ++ joinWith "," (jsonMembers kvs) ++ "\x7d")
/-- Array elements as JSON text: an `undefined` element prints as `null`. -/
def jsonElems : List JsVal → List String
  | [] => []
  | v :: t => (jsonStringify v).getD "null" :: jsonElems t
/-- Object members as JSON text: a member whose value is `undefined` is
left out. -/
def jsonMembers : List (String × JsVal) → List String
  | [] => []
  | (k, v) :: t =>
    match jsonStringify v with
    | some text => (quoteJSONString k ++ ":" ++ text) :: jsonMembers t
    | none => jsonMembers t
end

/-- The method `A.includes(B)` on character lists: `b` occurs in `a` as a
contiguous block. -/
def includesChars : List Char → List Char → Bool
  | [], b => b.isEmpty
  | c :: a, b => b.isPrefixOf (c :: a) || includesChars a b

/-- The method `A.includes(B)`. -/
def jsIncludes (a b : String) : Bool := includesChars a.data b.data

/-- White space and line terminators of ECMAScript, the characters that
`String.prototype.trim` strips. -/
def isJsSpace (c : Char) : Bool :=
  let n := c.toNat
  n == 9 || n == 10 || n == 11 || n == 12 || n == 13 || n == 32 || n == 160 ||
  n == 5760 || (8192 ≤ n && n ≤ 8202) || n == 8232 || n == 8233 || n == 8239 ||
  n == 8287 || n == 12288 || n == 65279

/-- The method `A.trim()`. -/
def jsTrim (s : String) : String :=
  String.mk ((s.data.dropWhile isJsSpace).reverse.dropWhile isJsSpace).reverse

/-- The method `s.toLowerCase()`, on the ASCII letters; strings whose cased
letters are not ASCII are outside the model. -/
def toLowerCase (s : String) : String := String.mk (s.data.map Char.toLower)

/-- Splits a character list at every dot, keeping empty segments. -/
def splitDotsChars : List Char → List (List Char)
  | [] => [[]]
  | c :: cs =>
    if c = '.' then [] :: splitDotsChars cs
    else
      match splitDotsChars cs with
      | h :: t => (c :: h) :: t
      | [] => [[c]]

/-- The call `s.split(".")`. -/
def splitDots (s : String) : List String := (splitDotsChars s.data).map String.mk

/-! ## Property access -/

/-- The array index a property key denotes, when the key is a canonical
decimal numeral. -/
def parseIndex (k : String) : Option Nat :=
  match k.data with
  | [] => none
  | [c] => if c.isDigit then some (c.toNat - 48) else none
  | c :: cs =>
    if c = '0' then none
    else if (c :: cs).all Char.isDigit then
      some ((c :: cs).foldl (fun acc d => 10 * acc + (d.toNat - 48)) 0)
    else none

/-- The UTF-16 code units of a text, each as a one-unit string; the two
halves of a character outside the basic plane are shown as U+FFFD. -/
def utf16Units : List Char → List String
  | [] => []
  | c :: cs =>
    if c.toNat < 65536 then String.singleton c :: utf16Units cs
    else String.singleton (Char.ofNat 65533) :: String.singleton (Char.ofNat 65533) :: utf16Units cs

/-- Own-property lookup in an object: the first member named `k`. -/
def lookupKey (k : String) : List (String × JsVal) → JsVal
  | [] => .undefined
  | (k', v) :: t => if k' = k then v else lookupKey k t

/-- Property access `v[k]` with the key already a string, by own properties:
arrays and strings have their indices and `length`, objects their own
members.  It is the read of the source for every key that names no inherited
member (`Proto.getMember` is the read with the inherited members, and
`getMember_eq_getProp` relates the two).  On `undefined` and `null`
JavaScript throws; every access in the source is guarded against them (by a
truthiness test or by `?.`), and the model gives `undefined` there. -/
def getProp (v : JsVal) (k : String) : JsVal :=
  match v with
  | .obj kvs => lookupKey k kvs
  | .arr xs =>
    if k = "length" then .num (.int xs.length)
    else
      match parseIndex k with
      | some i => xs.getD i .undefined
      | none => .undefined
  | .str s =>
    if k = "length" then .num (.int (utf16Units s.data).length)
    else
      match parseIndex k with
      | some i =>
        match (utf16Units s.data).get? i with
        | some u => .str u
        | none => .undefined
      | none => .undefined
  | _ => .undefined

/-- The number of own enumerable keys, `Object.keys(v).length`, of an
object. -/
def keyCount : JsVal → Nat
  | .obj kvs => kvs.length
  | _ => 0

/-! ## The helpers of the source -/

/-- Source `coerceToString`: `null` and `undefined` give the empty string, a
string itself, anything else its JSON text. -/
def coerceToString (v : JsVal) : String :=
  match v with
  | .null => ""
  | .undefined => ""
  | .str s => s
  | v => (jsonStringify v).getD ""

/-- Source `isObject`, as the truthiness of `v && typeof v === "object" &&
!Array.isArray(v)`. -/
def isObject (v : JsVal) : Bool :=
  v.truthy && v.typeofObject && !v.isArray

/-- The loop of source `getByPath` over the path segments. -/
def walkPath : JsVal → List String → JsVal
  | cur, [] => cur
  | cur, k :: ks =>
    if !cur.truthy || !cur.typeofObject then .undefined
    else walkPath (getProp cur k) ks

/-- Source `getByPath(obj, dotPath)`. -/
def getByPath (obj : JsVal) (dotPath : JsVal) : JsVal :=
  if !dotPath.truthy then .undefined
  else walkPath obj (splitDots (jsToString dotPath))

/-- Source `hasPath(obj, dotPath)`. -/
def hasPath (obj : JsVal) (dotPath : JsVal) : Bool :=
  !(getByPath obj dotPath).isUndefined

/-! ## The host -/

/-- What the runtime around the node supplies to the evaluation: the numeric
conversion `Number(v)` (doubles are not modelled beyond `NaN` and the
integers, so the parse is taken as given), the regular-expression engine,
the process environment, the message-property accessor of the Node-RED
utilities, the flow and global context stores and the JSONata evaluator.
`regexTest pattern subject` and `jsonata expr msg` are `none` when the call
throws, the case the source catches. -/
structure Host where
  toNumber : JsVal → JsNum
  regexTest : String → String → Option Bool
  env : String → Option String
  getMessageProperty : JsVal → String → JsVal
  flowGet : String → JsVal
  globalGet : String → JsVal
  jsonata : String → JsVal → Option JsVal

/-! ## Operators, typed right-hand sides, conditions -/

/-- Source `applyOp(actual, op, rhs)`. -/
def applyOp (host : Host) (actual op rhs : JsVal) : Bool :=
  let A := coerceToString actual
  let B := coerceToString rhs
  match op with
  | .str "==" => A == B
  | .str "!=" => A != B
  | .str "contains" => jsIncludes A B
  | .str "!contains" => !jsIncludes A B
  | .str "regex" =>
    match host.regexTest B A with
    | some r => r
    | none => false
  | .str "isEmpty" => jsTrim A == ""
  | .str "!isEmpty" => jsTrim A != ""
  | _ => true

/-- Source `resolveTyped(RED, node, msg, flow, global, type, value)`. -/
def resolveTyped (host : Host) (msg : JsVal) (type value : JsVal) : JsVal :=
  match type with
  | .str "num" => .num (host.toNumber value)
  | .str "bool" => .bool value.truthy
  | .str "env" =>
    JsVal.or (match host.env (jsToString value) with
      | some s => .str s
      | none => .undefined) (.str "")
  | .str "msg" => host.getMessageProperty msg (jsToString value)
  | .str "flow" => host.flowGet (jsToString value)
  | .str "global" => host.globalGet (jsToString value)
  | .str "jsonata" =>
    match host.jsonata (jsToString value) msg with
    | some v => v
    | none => .undefined
  | _ => value

/-! ## Rules and log entries -/

/-- A rule object, by the fields the engine reads; an absent field is
`undefined`.  The level is a severity name: the source lower-cases it with
no guard, so it is a string or absent (`none`). -/
structure Rule where
  id : JsVal
  type : JsVal
  description : JsVal
  level : Option String
  requiredSheets : JsVal
  sheet : JsVal
  requiredColumns : JsVal
  conditions : JsVal

/-- The test `!rule.level` negated: the level is present and not empty. -/
def levelTruthy : Option String → Bool
  | some s => s != ""
  | none => false

/-- The expression `rule.level || dflt`. -/
def levelOr (level : Option String) (dflt : String) : String :=
  match level with
  | some s => if s != "" then s else dflt
  | none => dflt

/-- The first condition of a rule, source
`rule.conditions && rule.conditions.and && rule.conditions.and[0]`. -/
def firstCondition (rule : Rule) : JsVal :=
  if !rule.conditions.truthy then rule.conditions
  else
    let conj := getProp rule.conditions "and"
    if !conj.truthy then conj else getProp conj "0"

/-- Source `evaluateRuleCondition(RED, node, rule, rootData, msg)`. -/
def evaluateRuleCondition (host : Host) (rule : Rule) (rootData msg : JsVal) : Bool :=
  let cond := firstCondition rule
  if !cond.truthy then true
  else
    let actual := getByPath rootData (JsVal.or (getProp cond "attribute") (.str ""))
    let rhs := resolveTyped host msg (JsVal.or (getProp cond "rhsType") (.str "str"))
      (getProp cond "value")
    applyOp host actual (JsVal.or (getProp cond "operator") (.str "==")) rhs

/-- A log entry. -/
structure Log where
  id : JsVal
  type : JsVal
  level : String
  message : String
  description : JsVal

/-- Source `makeLog(rule, level, message)`. -/
def makeLog (rule : Rule) (level : String) (message : String) : Log :=
  let lvl := toLowerCase (levelOr rule.level (if level != "" then level else "info"))
  { id := JsVal.or rule.id (.str ""),
    type := rule.type,
    level := lvl,
    message := message,
    description := JsVal.or rule.description (.str "") }

/-- The counts of a validation result. -/
structure Counts where
  info : Nat
  warning : Nat
  error : Nat
  total : Nat
  deriving DecidableEq, Repr

/-- The loop of source `summarize`: one log entry bumps one counter. -/
def summarizeLoop : List Log → Counts → Counts
  | [], out => out
  | l :: rest, out =>
    if l.level = "error" then summarizeLoop rest { out with error := out.error + 1 }
    else if l.level = "warning" then summarizeLoop rest { out with warning := out.warning + 1 }
    else summarizeLoop rest { out with info := out.info + 1 }

/-- Source `summarize(logs)`. -/
def summarize (logs : List Log) : Counts :=
  let out := summarizeLoop logs { info := 0, warning := 0, error := 0, total := 0 }
  { out with total := out.info + out.warning + out.error }

/-! ## Rule executors -/

/-- The elements of `Array.isArray(v) ? v : []`. -/
def arrayOrEmpty : JsVal → List JsVal
  | .arr xs => xs
  | _ => []

/-- The length of an array. -/
def arrayLength : JsVal → Nat
  | .arr xs => xs.length
  | _ => 0

/-- The access `data?.[key]`: `undefined` on `null` and `undefined`, else the
property named by the key converted to a string. -/
def optGet (data key : JsVal) : JsVal :=
  match data with
  | .undefined => .undefined
  | .null => .undefined
  | d => getProp d (jsToString key)

/-- The flag `exists` of source `doSheetsExist`. -/
def sheetExists (sheet : JsVal) : Bool :=
  !sheet.isUndefined &&
    ((sheet.isArray && decide (arrayLength sheet > 0)) ||
     (isObject sheet && decide (keyCount sheet > 0)))

/-- The message of a sheet that exists. -/
def msgSheetExists (s : JsVal) : String :=
  "Sheet '" ++ jsToString s ++ "' exists and is not empty."

/-- The message of a sheet that is missing or empty. -/
def msgSheetMissing (s : JsVal) : String :=
  "Sheet '" ++ jsToString s ++ "' is missing or empty."

/-- The entry the body of the loop of source `doSheetsExist` builds for the
required sheet `s`. -/
def sheetEntry (rule : Rule) (data s : JsVal) : Log :=
  let sheet := optGet data s
  let found := sheetExists sheet
  makeLog rule (if found then "info" else levelOr rule.level "error")
    (if found then msgSheetExists s else msgSheetMissing s)

/-- The loop of source `doSheetsExist`: each required sheet pushes its
entry. -/
def doSheetsExistLoop (rule : Rule) (data : JsVal) : List JsVal → List Log → List Log
  | [], logs => logs
  | s :: rest, logs => doSheetsExistLoop rule data rest (logs ++ [sheetEntry rule data s])

/-- Source `doSheetsExist(rule, data)`. -/
def doSheetsExist (rule : Rule) (data : JsVal) : List Log :=
  doSheetsExistLoop rule data (arrayOrEmpty rule.requiredSheets) []

/-- The message of an absent sheet. -/
def msgSheetNotFound (sheetName : JsVal) : String :=
  "Sheet '" ++ jsToString sheetName ++ "' not found."

/-- The message of a sheet without an object row. -/
def msgNoObjectRows (sheetName : JsVal) : String :=
  "Sheet '" ++ jsToString sheetName ++ "' has no object rows to inspect."

/-- The message of a column that is present. -/
def msgColumnFound (col sheetName : JsVal) : String :=
  "Column '" ++ jsToString col ++ "' found in '" ++ jsToString sheetName ++ "'."

/-- The message of a column that is missing. -/
def msgColumnMissing (col sheetName : JsVal) : String :=
  "Missing column '" ++ jsToString col ++ "' in '" ++ jsToString sheetName ++ "'."

/-- The sample row of a sheet, source `Array.isArray(sheet) ? sheet[0] : sheet`. -/
def sampleRow (sheet : JsVal) : JsVal :=
  if sheet.isArray then getProp sheet "0" else sheet

/-- The entry the body of the column loop of source `doSheetHasColumns`
builds for the column `col`. -/
def columnEntry (rule : Rule) (sheetName sample col : JsVal) : Log :=
  let ok := hasPath sample col
  makeLog rule (if ok then "info" else levelOr rule.level "error")
    (if ok then msgColumnFound col sheetName else msgColumnMissing col sheetName)

/-- The column loop of source `doSheetHasColumns`. -/
def columnsLoop (rule : Rule) (sheetName sample : JsVal) : List JsVal → List Log → List Log
  | [], logs => logs
  | col :: rest, logs =>
    columnsLoop rule sheetName sample rest (logs ++ [columnEntry rule sheetName sample col])

/-- The sheet name of a rule, source `rule.sheet || ""`. -/
def sheetNameOf (rule : Rule) : JsVal := JsVal.or rule.sheet (.str "")

/-- Source `doSheetHasColumns(rule, data)`. -/
def doSheetHasColumns (rule : Rule) (data : JsVal) : List Log :=
  let sheetName := sheetNameOf rule
  let cols := arrayOrEmpty rule.requiredColumns
  let sheet := optGet data sheetName
  if sheet.isUndefined then
    [makeLog rule (levelOr rule.level "error") (msgSheetNotFound sheetName)]
  else
    let sample := sampleRow sheet
    if !isObject sample then
      [makeLog rule (levelOr rule.level "error") (msgNoObjectRows sheetName)]
    else columnsLoop rule sheetName sample cols []

/-! ## The input handler -/

/-- The state of a node that the input handler reads: the editor flags and
rules, the cached file rules `_fileRules` (`none` for `null`) and the
default level. -/
structure Node where
  useConfigFile : Bool
  fileRules : Option (List Rule)
  rules : List Rule
  defaultLevel : String

/-- The default level of a node, source `config.defaultLevel || "info"`. -/
def nodeDefaultLevel (configured : Option String) : String :=
  levelOr configured "info"

/-- A validation result, the value of `msg.validation`. -/
structure Validation where
  logs : List Log
  counts : Counts

/-- The level fallback of the rule loop, source
`if (!rule.level) rule.level = node.defaultLevel`. -/
def defaultRuleLevel (defaultLevel : String) (rule : Rule) : Rule :=
  if !levelTruthy rule.level then { rule with level := some defaultLevel } else rule

/-- The logs one rule adds, once its level is set: none when its condition
fails or its type is unknown. -/
def dispatchRule (host : Host) (rule : Rule) (root msg : JsVal) (logs : List Log) : List Log :=
  if !evaluateRuleCondition host rule root msg then logs
  else if rule.type.isStr "sheetsExist" then logs ++ doSheetsExist rule root
  else if rule.type.isStr "sheetHasColumns" then logs ++ doSheetHasColumns rule root
  else logs

/-- The rule loop of the input handler.  The rule objects are shared with
the node, so the loop returns them as it leaves them, next to the logs. -/
def ruleLoop (host : Host) (defaultLevel : String) (root msg : JsVal) :
    List Rule → List Log → List Rule × List Log
  | [], logs => ([], logs)
  | rule :: rest, logs =>
    let rule1 := defaultRuleLevel defaultLevel rule
    let out := ruleLoop host defaultLevel root msg rest (dispatchRule host rule1 root msg logs)
    (rule1 :: out.1, out.2)

/-- The rule set of an invocation, source
`node.useConfigFile && node._fileRules ? node._fileRules : node.rules`. -/
def selectedRules (node : Node) : List Rule :=
  match node.useConfigFile, node.fileRules with
  | true, some fileRules => fileRules
  | _, _ => node.rules

/-- The node once the rule loop has run over its selected rule objects. -/
def storeRules (node : Node) (rules : List Rule) : Node :=
  match node.useConfigFile, node.fileRules with
  | true, some _ => { node with fileRules := some rules }
  | _, _ => { node with rules := rules }

/-- The empty validation result of an invalid data root. -/
def emptyValidation : Validation :=
  { logs := [], counts := { info := 0, warning := 0, error := 0, total := 0 } }

/-- The input handler from the resolved data root on: the node as the
invocation leaves it, and the validation result it sends. -/
def onInput (host : Host) (node : Node) (root msg : JsVal) : Node × Validation :=
  if !isObject root then (node, emptyValidation)
  else
    let out := ruleLoop host node.defaultLevel root msg (selectedRules node) []
    (storeRules node out.1, { logs := out.2, counts := summarize out.2 })

/-! ## Rule files -/

/-- The method `s.endsWith(t)`. -/
def jsEndsWith (s t : String) : Bool := t.data.reverse.isPrefixOf s.data.reverse

/-- The method `s.startsWith(t)`. -/
def jsStartsWith (s t : String) : Bool := t.data.isPrefixOf s.data

/-- Splits a character list at every slash, keeping empty segments. -/
def splitSlashChars : List Char → List (List Char)
  | [] => [[]]
  | c :: cs =>
    if c = '/' then [] :: splitSlashChars cs
    else
      match splitSlashChars cs with
      | h :: t => (c :: h) :: t
      | [] => [[c]]

/-- The segments of a path between its slashes. -/
def splitSlash (s : String) : List String := (splitSlashChars s.data).map String.mk

/-- The segment walk of POSIX `path.normalize` and `path.resolve`: empty
segments and `.` are dropped, `..` removes the segment before it; above the
start `..` is kept when `allowAbove` holds (a relative path) and dropped
otherwise.  `stack` holds the segments kept so far, last first. -/
def normalizeSegments (allowAbove : Bool) : List String → List String → List String
  | [], stack => stack.reverse
  | seg :: rest, stack =>
    if seg = "" || seg = "." then normalizeSegments allowAbove rest stack
    else if seg = ".." then
      match stack with
      | top :: below =>
        if top = ".." then normalizeSegments allowAbove rest (".." :: stack)
        else normalizeSegments allowAbove rest below
      | [] =>
        if allowAbove then normalizeSegments allowAbove rest [".."]
        else normalizeSegments allowAbove rest []
    else normalizeSegments allowAbove rest (seg :: stack)

/-- POSIX `path.isAbsolute(p)`. -/
def pathIsAbsolute (p : String) : Bool := jsStartsWith p "/"

/-- POSIX `path.normalize(p)`. -/
def pathNormalize (p : String) : String :=
  if p = "" then "."
  else
    let body := joinWith "/" (normalizeSegments (!pathIsAbsolute p) (splitSlash p) [])
    if body = "" then
      if pathIsAbsolute p then "/" else if jsEndsWith p "/" then "./" else "."
    else
      let tail := if jsEndsWith p "/" then body ++ "/" else body
      if pathIsAbsolute p then "/" ++ tail else tail

/-- POSIX `path.join(a, b)`: the non-empty arguments joined by a slash, then
normalized. -/
def pathJoin (a b : String) : String :=
  if a = "" then pathNormalize b
  else if b = "" then pathNormalize a
  else pathNormalize (a ++ "/" ++ b)

/-- POSIX `path.resolve(p)` in a process whose working directory is the
absolute path `cwd`. -/
def pathResolve (cwd p : String) : String :=
  let full := if p = "" then cwd else if pathIsAbsolute p then p else cwd ++ "/" ++ p
  "/" ++ joinWith "/" (normalizeSegments false (splitSlash full) [])

/-- What the admin endpoints read of the runtime settings and the process:
`RED.settings.userDir` (`none` when unset) and `process.cwd()`. -/
structure Settings where
  userDir : Option String
  cwd : String

/-- Source `userDir(RED)`, `RED.settings.userDir || process.cwd()`. -/
def userDir (settings : Settings) : String :=
  match settings.userDir with
  | some d => if d != "" then d else settings.cwd
  | none => settings.cwd

/-- Source `toUserAbs(RED, relOrAbs)`; `none` stands for `null`, and for an
absent argument. -/
def toUserAbs (settings : Settings) (relOrAbs : Option String) : Option String :=
  match relOrAbs with
  | none => none
  | some p =>
    if p = "" then none
    else if pathIsAbsolute p then some p
    else some (pathJoin (userDir settings) p)

/-- Source `ensureJsonUnderUserDir(RED, p)`: the accepted absolute path, or
the message of the error thrown. -/
def ensureJsonUnderUserDir (settings : Settings) (p : Option String) : Except String String :=
  match p with
  | none => .error "Path must end with .json"
  | some path =>
    if path = "" || !jsEndsWith path ".json" then .error "Path must end with .json"
    else
      let abs := toUserAbs settings (some path)
      let u := pathResolve settings.cwd (userDir settings)
      let a := pathResolve settings.cwd (abs.getD "")
      if !jsStartsWith a u then .error "Path must be under userDir"
      else .ok a

/-- Source `resolveUserFile(RED, relOrAbs)`. -/
def resolveUserFile (settings : Settings) (relOrAbs : Option String) : Option String :=
  match relOrAbs with
  | none => none
  | some p =>
    if p = "" then none
    else if pathIsAbsolute p then some p
    else some (pathJoin (userDir settings) p)

/-- The files as the loader sees them: `fs.existsSync`, `fs.readFileSync`
(`none` when the read throws) and `JSON.parse` (`none` when the text is not
JSON and the parse throws). -/
structure Files where
  existsSync : String → Bool
  readFileSync : String → Option String
  jsonParse : String → Option JsVal

/-- Source `loadRulesFromFile(filePath)`: the rule array of the file, `none`
for the result `null`. -/
def loadRulesFromFile (files : Files) (filePath : Option String) : Option (List JsVal) :=
  match filePath with
  | none => none
  | some path =>
    if path = "" || !files.existsSync path then none
    else
      match files.readFileSync path with
      | none => none
      | some txt =>
        match files.jsonParse txt with
        | none => none
        | some json =>
          if json.isArray then some (arrayOrEmpty json)
          else if json.truthy && (getProp json "rules").isArray then
            some (arrayOrEmpty (getProp json "rules"))
          else none

/-- The rule object held in an element of a rule array, by the fields the
engine reads.  A level that is not a string has no place in `Rule` and is
read as absent; `Proto.ruleOfJs` keeps it. -/
def ruleOfJs (v : JsVal) : Rule :=
  { id := getProp v "id",
    type := getProp v "type",
    description := getProp v "description",
    level := match getProp v "level" with
      | .str s => some s
      | _ => none,
    requiredSheets := getProp v "requiredSheets",
    sheet := getProp v "sheet",
    requiredColumns := getProp v "requiredColumns",
    conditions := getProp v "conditions" }

/-- The callback of the file watcher, source
`node._fileRules = loadRulesFromFile(fileAbs)`. -/
def reloadFileRules (files : Files) (fileAbs : String) (node : Node) : Node :=
  { node with
    fileRules := (loadRulesFromFile files (some fileAbs)).map (fun rules => rules.map ruleOfJs) }

/-! ## Inherited members and raised errors

The definitions above read the data by own properties and take the level of
a rule as a string: they are the engine on the inputs that reach no
inherited member and raise nothing.  This section embeds the same functions
of the source without these two limits.  A property read on a data value
also finds what the value inherits from its built-in prototype: the methods,
the constructor and the accessor `__proto__`.  Such a member is a function
or a prototype object, neither of them a value of the JSON domain, so a read
yields a `Member`.  `JSON.stringify` of a function is `undefined`, on which
`includes` and `trim` throw; `toLowerCase` throws on a level that is not a
string.  Functions that can throw return `Except`, the error being the thrown
one; the input handler catches it and sends no message.

The names a rule object is read by (`id`, `type`, `level`, `conditions`,
`and`, `attribute`, `operator`, `rhsType`, `value` and the others) are members
of no built-in prototype, so rule objects are still read by own properties.
-/

/-- The built-in prototype objects that the values of the data inherit
from. -/
inductive ProtoKind where
  | object
  | array
  | string
  | number
  | boolean
  deriving DecidableEq, Repr

/-- What a property read on the data yields: a value of the JSON domain (or
`undefined`), a built-in function, or a built-in prototype object. -/
inductive Member where
  | val (v : JsVal)
  | fn
  | proto (kind : ProtoKind)

/-- The JavaScript engine as the data sees it: for each built-in prototype
the names of its function-valued members (they depend on the version of the
engine), and the method `String.prototype.toLowerCase`. -/
structure Realm where
  objectFns : String → Bool
  arrayFns : String → Bool
  stringFns : String → Bool
  numberFns : String → Bool
  booleanFns : String → Bool
  toLowerCase : String → String

namespace Member

/-- The test `m === undefined`. -/
def isUndefined : Member → Bool
  | val v => v.isUndefined
  | _ => false

/-- Whether the member is a function. -/
def isFn : Member → Bool
  | fn => true
  | _ => false

/-- JavaScript truthiness: functions and objects are truthy. -/
def truthy : Member → Bool
  | val v => v.truthy
  | _ => true

/-- The test `typeof m === "object"`: false of a function. -/
def typeofObject : Member → Bool
  | val v => v.typeofObject
  | fn => false
  | proto _ => true

/-- The test `Array.isArray(m)`: true of `Array.prototype`, an array itself. -/
def isArray : Member → Bool
  | val v => v.isArray
  | proto .array => true
  | _ => false

end Member

namespace Proto

/-- Whether an object has an own property named `k`. -/
def hasOwnKey (k : String) : List (String × JsVal) → Bool
  | [] => false
  | (k', _) :: t => k' = k || hasOwnKey k t

/-- The own property of `m` named `k`, if there is one (the own function
members of a prototype object are left to `hasFn`). -/
def ownMember (m : Member) (k : String) : Option Member :=
  match m with
  | .val (.obj kvs) => if hasOwnKey k kvs then some (.val (lookupKey k kvs)) else none
  | .val (.arr xs) =>
    if k = "length" then some (.val (.num (.int xs.length)))
    else
      match parseIndex k with
      | some i => if i < xs.length then some (.val (xs.getD i .undefined)) else none
      | none => none
  | .val (.str s) =>
    if k = "length" then some (.val (.num (.int (utf16Units s.data).length)))
    else
      match parseIndex k with
      | some i =>
        match (utf16Units s.data).get? i with
        | some u => some (.val (.str u))
        | none => none
      | none => none
  | .proto .array => if k = "length" then some (.val (.num (.int 0))) else none
  | .proto .string => if k = "length" then some (.val (.num (.int 0))) else none
  | _ => none

/-- The prototype of `m`, what the accessor `__proto__` returns on it. -/
def protoOf : Member → Member
  | .val (.obj _) => .proto .object
  | .val (.arr _) => .proto .array
  | .val (.str _) => .proto .string
  | .val (.num _) => .proto .number
  | .val (.bool _) => .proto .boolean
  | .val _ => .val .undefined
  | .fn => .fn
  | .proto .object => .val .null
  | .proto _ => .proto .object

/-- Whether `k` names a function that `m` has on its prototype chain (or, for
a prototype object, of its own). -/
def hasFn (realm : Realm) (m : Member) (k : String) : Bool :=
  match m with
  | .val (.obj _) => realm.objectFns k
  | .val (.arr _) => realm.arrayFns k || realm.objectFns k
  | .val (.str _) => realm.stringFns k || realm.objectFns k
  | .val (.num _) => realm.numberFns k || realm.objectFns k
  | .val (.bool _) => realm.booleanFns k || realm.objectFns k
  | .val _ => false
  | .fn => false
  | .proto .object => realm.objectFns k
  | .proto .array => realm.arrayFns k || realm.objectFns k
  | .proto .string => realm.stringFns k || realm.objectFns k
  | .proto .number => realm.numberFns k || realm.objectFns k
  | .proto .boolean => realm.booleanFns k || realm.objectFns k

/-- Property access `m[k]` with the key already a string: an own property
first, then the accessor `__proto__`, then an inherited function, else
`undefined`.  On `undefined` and `null` JavaScript throws; every access in
the source is guarded against them and the model gives `undefined` there.
No access of the source reads a property of a function. -/
def getMember (realm : Realm) (m : Member) (k : String) : Member :=
  match ownMember m k with
  | some r => r
  | none =>
    if k = "__proto__" then protoOf m
    else if hasFn realm m k then .fn
    else .val .undefined

/-- The access `data?.[key]`. -/
def optGet (realm : Realm) (data key : JsVal) : Member :=
  match data with
  | .undefined => .val .undefined
  | .null => .val .undefined
  | d => getMember realm (.val d) (jsToString key)

/-- Source `isObject`, as a truthiness. -/
def isObject (m : Member) : Bool :=
  m.truthy && m.typeofObject && !m.isArray

/-- The length of an array; `Array.prototype` has length zero. -/
def arrayLength : Member → Nat
  | .val v => DataValidationEngine.arrayLength v
  | _ => 0

/-- The number `Object.keys(m).length`; a prototype object has no
enumerable key. -/
def keyCount : Member → Nat
  | .val v => DataValidationEngine.keyCount v
  | _ => 0

/-- The call `JSON.stringify` on a prototype object. -/
def protoJson : ProtoKind → String
  | .object => "\x7b\x7d"
  | .array => "[]"
  | .string => "\"\""
  | .number => "0"
  | .boolean => "false"

/-- Source `coerceToString`; `none` stands for the result `undefined`, which
`JSON.stringify` gives on a function. -/
def coerceToString (m : Member) : Option String :=
  match m with
  | .val v => some (DataValidationEngine.coerceToString v)
  | .fn => none
  | .proto kind => some (protoJson kind)

/-- The loop of source `getByPath` over the path segments. -/
def walkPath (realm : Realm) : Member → List String → Member
  | cur, [] => cur
  | cur, k :: ks =>
    if !cur.truthy || !cur.typeofObject then .val .undefined
    else walkPath realm (getMember realm cur k) ks

/-- Source `getByPath(obj, dotPath)`. -/
def getByPath (realm : Realm) (obj : Member) (dotPath : JsVal) : Member :=
  if !dotPath.truthy then .val .undefined
  else walkPath realm obj (splitDots (jsToString dotPath))

/-- Source `hasPath(obj, dotPath)`. -/
def hasPath (realm : Realm) (obj : Member) (dotPath : JsVal) : Bool :=
  !(getByPath realm obj dotPath).isUndefined

/-- Source `applyOp(actual, op, rhs)`: `includes` and `trim` throw when
`coerceToString(actual)` is `undefined`; `RegExp.prototype.test` converts it
to the text "undefined". -/
def applyOp (host : Host) (actual : Member) (op rhs : JsVal) : Except String Bool :=
  let A := coerceToString actual
  let B := DataValidationEngine.coerceToString rhs
  match op with
  | .str "==" => .ok (decide (A = some B))
  | .str "!=" => .ok (!decide (A = some B))
  | .str "contains" =>
    match A with
    | some a => .ok (jsIncludes a B)
    | none => .error "TypeError: Cannot read properties of undefined (reading 'includes')"
  | .str "!contains" =>
    match A with
    | some a => .ok (!jsIncludes a B)
    | none => .error "TypeError: Cannot read properties of undefined (reading 'includes')"
  | .str "regex" =>
    match host.regexTest B (A.getD "undefined") with
    | some r => .ok r
    | none => .ok false
  | .str "isEmpty" =>
    match A with
    | some a => .ok (jsTrim a == "")
    | none => .error "TypeError: Cannot read properties of undefined (reading 'trim')"
  | .str "!isEmpty" =>
    match A with
    | some a => .ok (jsTrim a != "")
    | none => .error "TypeError: Cannot read properties of undefined (reading 'trim')"
  | _ => .ok true

/-- A rule object, by the fields the engine reads; an absent field is
`undefined`.  The level is whatever the rule object holds. -/
structure RuleObj where
  id : JsVal
  type : JsVal
  description : JsVal
  level : JsVal
  requiredSheets : JsVal
  sheet : JsVal
  requiredColumns : JsVal
  conditions : JsVal

/-- The first condition of a rule, source
`rule.conditions && rule.conditions.and && rule.conditions.and[0]`. -/
def firstCondition (rule : RuleObj) : JsVal :=
  if !rule.conditions.truthy then rule.conditions
  else
    let conj := getProp rule.conditions "and"
    if !conj.truthy then conj else getProp conj "0"

/-- Source `evaluateRuleCondition(RED, node, rule, rootData, msg)`. -/
def evaluateRuleCondition (realm : Realm) (host : Host) (rule : RuleObj)
    (rootData msg : JsVal) : Except String Bool :=
  let cond := firstCondition rule
  if !cond.truthy then .ok true
  else
    let actual := getByPath realm (.val rootData)
      (JsVal.or (getProp cond "attribute") (.str ""))
    let rhs := resolveTyped host msg (JsVal.or (getProp cond "rhsType") (.str "str"))
      (getProp cond "value")
    applyOp host actual (JsVal.or (getProp cond "operator") (.str "==")) rhs

/-- Source `makeLog(rule, level, message)`: the call of `toLowerCase` throws
when `rule.level || level || "info"` is not a string. -/
def makeLog (realm : Realm) (rule : RuleObj) (level : JsVal) (message : String) :
    Except String Log :=
  match JsVal.or (JsVal.or rule.level level) (.str "info") with
  | .str s =>
    .ok { id := JsVal.or rule.id (.str ""),
          type := rule.type,
          level := realm.toLowerCase s,
          message := message,
          description := JsVal.or rule.description (.str "") }
  | _ => .error "TypeError: (rule.level || level || \"info\").toLowerCase is not a function"

/-- The flag `exists` of source `doSheetsExist`. -/
def sheetExists (sheet : Member) : Bool :=
  !sheet.isUndefined &&
    ((sheet.isArray && decide (arrayLength sheet > 0)) ||
     (isObject sheet && decide (keyCount sheet > 0)))

/-- The entry the body of the loop of source `doSheetsExist` builds for the
required sheet `s`. -/
def sheetEntry (realm : Realm) (rule : RuleObj) (data s : JsVal) : Except String Log :=
  let sheet := optGet realm data s
  let found := sheetExists sheet
  makeLog realm rule (if found then .str "info" else JsVal.or rule.level (.str "error"))
    (if found then msgSheetExists s else msgSheetMissing s)

/-- The loop of source `doSheetsExist`; a throw ends it. -/
def doSheetsExistLoop (realm : Realm) (rule : RuleObj) (data : JsVal) :
    List JsVal → List Log → Except String (List Log)
  | [], logs => .ok logs
  | s :: rest, logs =>
    match sheetEntry realm rule data s with
    | .error e => .error e
    | .ok entry => doSheetsExistLoop realm rule data rest (logs ++ [entry])

/-- Source `doSheetsExist(rule, data)`. -/
def doSheetsExist (realm : Realm) (rule : RuleObj) (data : JsVal) : Except String (List Log) :=
  doSheetsExistLoop realm rule data (arrayOrEmpty rule.requiredSheets) []

/-- The sample row of a sheet, source `Array.isArray(sheet) ? sheet[0] : sheet`. -/
def sampleRow (realm : Realm) (sheet : Member) : Member :=
  if sheet.isArray then getMember realm sheet "0" else sheet

/-- The entry the body of the column loop of source `doSheetHasColumns`
builds for the column `col`. -/
def columnEntry (realm : Realm) (rule : RuleObj) (sheetName : JsVal) (sample : Member)
    (col : JsVal) : Except String Log :=
  let ok := hasPath realm sample col
  makeLog realm rule (if ok then .str "info" else JsVal.or rule.level (.str "error"))
    (if ok then msgColumnFound col sheetName else msgColumnMissing col sheetName)

/-- The column loop of source `doSheetHasColumns`; a throw ends it. -/
def columnsLoop (realm : Realm) (rule : RuleObj) (sheetName : JsVal) (sample : Member) :
    List JsVal → List Log → Except String (List Log)
  | [], logs => .ok logs
  | col :: rest, logs =>
    match columnEntry realm rule sheetName sample col with
    | .error e => .error e
    | .ok entry => columnsLoop realm rule sheetName sample rest (logs ++ [entry])

/-- The sheet name of a rule, source `rule.sheet || ""`. -/
def sheetNameOf (rule : RuleObj) : JsVal := JsVal.or rule.sheet (.str "")

/-- Source `doSheetHasColumns(rule, data)`. -/
def doSheetHasColumns (realm : Realm) (rule : RuleObj) (data : JsVal) :
    Except String (List Log) :=
  let sheetName := sheetNameOf rule
  let cols := arrayOrEmpty rule.requiredColumns
  let sheet := optGet realm data sheetName
  if sheet.isUndefined then
    match makeLog realm rule (JsVal.or rule.level (.str "error")) (msgSheetNotFound sheetName) with
    | .error e => .error e
    | .ok entry => .ok [entry]
  else
    let sample := sampleRow realm sheet
    if !isObject sample then
      match makeLog realm rule (JsVal.or rule.level (.str "error"))
          (msgNoObjectRows sheetName) with
      | .error e => .error e
      | .ok entry => .ok [entry]
    else columnsLoop realm rule sheetName sample cols []

/-- The state of a node that the input handler reads. -/
structure Node where
  useConfigFile : Bool
  fileRules : Option (List RuleObj)
  rules : List RuleObj
  defaultLevel : JsVal

/-- The level fallback of the rule loop, source
`if (!rule.level) rule.level = node.defaultLevel`. -/
def defaultRuleLevel (defaultLevel : JsVal) (rule : RuleObj) : RuleObj :=
  if !rule.level.truthy then { rule with level := defaultLevel } else rule

/-- The body of the rule loop after the level fallback: the logs with what
the rule adds, or the error it raises. -/
def dispatchRule (realm : Realm) (host : Host) (rule : RuleObj) (root msg : JsVal)
    (logs : List Log) : Except String (List Log) :=
  match evaluateRuleCondition realm host rule root msg with
  | .error e => .error e
  | .ok false => .ok logs
  | .ok true =>
    if rule.type.isStr "sheetsExist" then
      match doSheetsExist realm rule root with
      | .error e => .error e
      | .ok added => .ok (logs ++ added)
    else if rule.type.isStr "sheetHasColumns" then
      match doSheetHasColumns realm rule root with
      | .error e => .error e
      | .ok added => .ok (logs ++ added)
    else .ok logs

/-- The rule loop of the input handler: the rule objects as the loop leaves
them (a throw leaves the rules after the throwing one untouched), and the
logs or the error raised. -/
def ruleLoop (realm : Realm) (host : Host) (defaultLevel : JsVal) (root msg : JsVal) :
    List RuleObj → List Log → List RuleObj × Except String (List Log)
  | [], logs => ([], .ok logs)
  | rule :: rest, logs =>
    let rule1 := defaultRuleLevel defaultLevel rule
    match dispatchRule realm host rule1 root msg logs with
    | .error e => (rule1 :: rest, .error e)
    | .ok logs1 =>
      let out := ruleLoop realm host defaultLevel root msg rest logs1
      (rule1 :: out.1, out.2)

/-- The rule set of an invocation, source
`node.useConfigFile && node._fileRules ? node._fileRules : node.rules`. -/
def selectedRules (node : Node) : List RuleObj :=
  match node.useConfigFile, node.fileRules with
  | true, some fileRules => fileRules
  | _, _ => node.rules

/-- The node once the rule loop has run over its selected rule objects. -/
def storeRules (node : Node) (rules : List RuleObj) : Node :=
  match node.useConfigFile, node.fileRules with
  | true, some _ => { node with fileRules := some rules }
  | _, _ => { node with rules := rules }

/-- The input handler from the resolved data root on: the node as the
invocation leaves it, and the validation result it sends, or the error it
reports through `done(err)` without sending a message. -/
def onInput (realm : Realm) (host : Host) (node : Node) (root msg : JsVal) :
    Node × Except String Validation :=
  if !DataValidationEngine.isObject root then (node, .ok emptyValidation)
  else
    let out := ruleLoop realm host node.defaultLevel root msg (selectedRules node) []
    (storeRules node out.1,
     match out.2 with
     | .error e => .error e
     | .ok logs => .ok { logs := logs, counts := summarize logs })

/-- The rule object held in an element of a rule array, by the fields the
engine reads, the level as it stands. -/
def ruleOfJs (v : JsVal) : RuleObj :=
  { id := getProp v "id",
    type := getProp v "type",
    description := getProp v "description",
    level := getProp v "level",
    requiredSheets := getProp v "requiredSheets",
    sheet := getProp v "sheet",
    requiredColumns := getProp v "requiredColumns",
    conditions := getProp v "conditions" }

/-- The callback of the file watcher, source
`node._fileRules = loadRulesFromFile(fileAbs)`. -/
def reloadFileRules (files : Files) (fileAbs : String) (node : Node) : Node :=
  { node with
    fileRules := (loadRulesFromFile files (some fileAbs)).map (fun rules => rules.map ruleOfJs) }

/-- Whether a call raised an error. -/
def raised {α : Type} : Except String α → Bool
  | .error _ => true
  | .ok _ => false

end Proto

/-! ## Sample data -/

/-- A host with nothing in its stores. -/
def emptyHost : Host :=
  { toNumber := fun _ => .nan,
    regexTest := fun _ _ => none,
    env := fun _ => none,
    getMessageProperty := fun _ _ => .undefined,
    flowGet := fun _ => .undefined,
    globalGet := fun _ => .undefined,
    jsonata := fun _ _ => none }

/-- A rule object with no field set. -/
def blankRule : Rule :=
  { id := .undefined, type := .undefined, description := .undefined, level := none,
    requiredSheets := .undefined, sheet := .undefined, requiredColumns := .undefined,
    conditions := .undefined }

/-- The data root `{Customers:[{id:1,name:"A"}]}`. -/
def customersRoot : JsVal :=
  .obj [("Customers", .arr [.obj [("id", .num (.int 1)), ("name", .str "A")]])]

/-- The rules `[{type:"sheetsExist",requiredSheets:["Customers","Orders"]},
{type:"sheetHasColumns",sheet:"Customers",requiredColumns:["id","name","email"]}]`. -/
def customersRules : List Rule :=
  [ { blankRule with type := .str "sheetsExist",
                     requiredSheets := .arr [.str "Customers", .str "Orders"] },
    { blankRule with type := .str "sheetHasColumns", sheet := .str "Customers",
                     requiredColumns := .arr [.str "id", .str "name", .str "email"] } ]

/-- A node with editor rules only. -/
def editorNode (rules : List Rule) (defaultLevel : String) : Node :=
  { useConfigFile := false, fileRules := none, rules := rules, defaultLevel := defaultLevel }

/-- The data root `{A: [{}], B: []}`. -/
def sheetsAB : JsVal :=
  .obj [("A", .arr [.obj []]), ("B", .arr [])]

/-- The data root `{Sheet1: [{x:1,y:2}]}`. -/
def sheet1Root : JsVal :=
  .obj [("Sheet1", .arr [.obj [("x", .num (.int 1)), ("y", .num (.int 2))]])]

/-- The rule `{type:"sheetHasColumns", sheet:"Sheet1",
requiredColumns:["x","y","z"]}`. -/
def sheet1Rule : Rule :=
  { blankRule with type := .str "sheetHasColumns", sheet := .str "Sheet1",
                   requiredColumns := .arr [.str "x", .str "y", .str "z"] }

/-- A column rule on the sheet named `name`, asking for the columns x, y, z. -/
def columnsRuleOn (name : String) : Rule :=
  { blankRule with type := .str "sheetHasColumns", sheet := .str name,
                   requiredColumns := .arr [.str "x", .str "y", .str "z"] }

/-- The conditions object `{and: [cond]}` with the single condition `cond`. -/
def singleCondition (cond : JsVal) : JsVal :=
  .obj [("and", .arr [cond])]

/-- The condition `{attribute:"env", operator:"==", rhsType:"str",
value:"prod"}`. -/
def envProdCondition : JsVal :=
  .obj [("attribute", .str "env"), ("operator", .str "=="), ("rhsType", .str "str"),
        ("value", .str "prod")]

/-- The condition `{attribute:"env", operator: op, value:"prod"}`. -/
def envConditionWith (op : String) : JsVal :=
  .obj [("attribute", .str "env"), ("operator", .str op), ("value", .str "prod")]

/-- The rules of the end-to-end example, the first one guarded by the
condition on `env`. -/
def guardedCustomersRules : List Rule :=
  [ { blankRule with type := .str "sheetsExist",
                     requiredSheets := .arr [.str "Customers", .str "Orders"],
                     conditions := singleCondition envProdCondition },
    { blankRule with type := .str "sheetHasColumns", sheet := .str "Customers",
                     requiredColumns := .arr [.str "id", .str "name", .str "email"] },
    { blankRule with type := .str "rowCount" } ]

/-- The conditions object `{and: [first, second]}`. -/
def twoConditions (first second : JsVal) : JsVal :=
  .obj [("and", .arr [first, second])]

/-- The condition `{attribute:"tier", operator:"==", rhsType:"str",
value:"silver"}`. -/
def tierSilverCondition : JsVal :=
  .obj [("attribute", .str "tier"), ("operator", .str "=="), ("rhsType", .str "str"),
        ("value", .str "silver")]

/-- The data root `{env:"prod", tier:"gold", Customers:[{id:1,name:"A"}]}`. -/
def prodGoldRoot : JsVal :=
  .obj [("env", .str "prod"), ("tier", .str "gold"),
        ("Customers", .arr [.obj [("id", .num (.int 1)), ("name", .str "A")]])]

/-- The data root `{rows:[{id:1}]}`. -/
def rowsRoot : JsVal :=
  .obj [("rows", .arr [.obj [("id", .num (.int 1))]])]

/-- The condition `{attribute: attr, operator:"==", rhsType:"bool",
value:"false"}`. -/
def boolFalseCondition (attr : JsVal) : JsVal :=
  .obj [("attribute", attr), ("operator", .str "=="), ("rhsType", .str "bool"),
        ("value", .str "false")]

/-- The data root `{active: true}`. -/
def activeRoot : JsVal := .obj [("active", .bool true)]

/-- A file system without files. -/
def noFiles : Files :=
  { existsSync := fun _ => false, readFileSync := fun _ => none, jsonParse := fun _ => none }

/-- A file system whose files all hold the text `oops`, which is not JSON. -/
def brokenFiles : Files :=
  { existsSync := fun _ => true, readFileSync := fun _ => some "oops",
    jsonParse := fun _ => none }

/-- A file system whose files all hold the JSON text of `{rules: "none"}`. -/
def misshapenFiles : Files :=
  { existsSync := fun _ => true, readFileSync := fun _ => some "\x7b\"rules\":\"none\"\x7d",
    jsonParse := fun _ => some (.obj [("rules", .str "none")]) }

/-- A node in file mode whose cache holds the rules of the end-to-end
example and whose editor rules are empty. -/
def fileNode : Node :=
  { useConfigFile := true, fileRules := some customersRules, rules := [], defaultLevel := "info" }

/-- Settings with the trusted root `/data/nodered`, in a process working in
`/home/u`. -/
def noderedSettings : Settings :=
  { userDir := some "/data/nodered", cwd := "/home/u" }

/-- The data root `{Sheet1: [{x:1}, {y:2}]}`. -/
def twoRowRoot : JsVal :=
  .obj [("Sheet1", .arr [.obj [("x", .num (.int 1))], .obj [("y", .num (.int 2))]])]

/-- The data root `{Sheet1: [{x:1}]}`. -/
def oneRowRoot : JsVal :=
  .obj [("Sheet1", .arr [.obj [("x", .num (.int 1))]])]

/-- The function-valued members of `Object.prototype` (ECMAScript 2023 with
Annex B). -/
def objectProtoFns : List String :=
  ["constructor", "__defineGetter__", "__defineSetter__", "hasOwnProperty",
   "__lookupGetter__", "__lookupSetter__", "isPrototypeOf", "propertyIsEnumerable",
   "toString", "valueOf", "toLocaleString"]

/-- The function-valued members of `Array.prototype` (ECMAScript 2023). -/
def arrayProtoFns : List String :=
  ["constructor", "at", "concat", "copyWithin", "fill", "find", "findIndex", "findLast",
   "findLastIndex", "lastIndexOf", "pop", "push", "reverse", "shift", "unshift", "slice",
   "sort", "splice", "includes", "indexOf", "join", "keys", "entries", "values", "forEach",
   "filter", "flat", "flatMap", "map", "every", "some", "reduce", "reduceRight",
   "toLocaleString", "toString", "toReversed", "toSorted", "toSpliced", "with"]

/-- The function-valued members of `String.prototype` (ECMAScript 2023 with
Annex B). -/
def stringProtoFns : List String :=
  ["constructor", "anchor", "at", "big", "blink", "bold", "charAt", "charCodeAt",
   "codePointAt", "concat", "endsWith", "fontcolor", "fontsize", "fixed", "includes",
   "indexOf", "isWellFormed", "italics", "lastIndexOf", "link", "localeCompare", "match",
   "matchAll", "normalize", "padEnd", "padStart", "repeat", "replace", "replaceAll",
   "search", "slice", "small", "split", "strike", "sub", "substr", "substring", "sup",
   "startsWith", "toString", "toWellFormed", "trim", "trimStart", "trimLeft", "trimEnd",
   "trimRight", "toLocaleLowerCase", "toLocaleUpperCase", "toLowerCase", "toUpperCase",
   "valueOf"]

/-- The function-valued members of `Number.prototype`. -/
def numberProtoFns : List String :=
  ["constructor", "toExponential", "toFixed", "toPrecision", "toString", "valueOf",
   "toLocaleString"]

/-- The function-valued members of `Boolean.prototype`. -/
def booleanProtoFns : List String := ["constructor", "toString", "valueOf"]

/-- An engine with the built-in members of ECMAScript 2023; its
`toLowerCase` is the one on ASCII letters. -/
def es2023 : Realm :=
  { objectFns := fun k => objectProtoFns.contains k,
    arrayFns := fun k => arrayProtoFns.contains k,
    stringFns := fun k => stringProtoFns.contains k,
    numberFns := fun k => numberProtoFns.contains k,
    booleanFns := fun k => booleanProtoFns.contains k,
    toLowerCase := toLowerCase }

/-- A rule object with no field set. -/
def blankRuleObj : Proto.RuleObj :=
  { id := .undefined, type := .undefined, description := .undefined, level := .undefined,
    requiredSheets := .undefined, sheet := .undefined, requiredColumns := .undefined,
    conditions := .undefined }

/-- A node with editor rules only. -/
def editorNodeObj (rules : List Proto.RuleObj) (defaultLevel : JsVal) : Proto.Node :=
  { useConfigFile := false, fileRules := none, rules := rules, defaultLevel := defaultLevel }

/-- The condition `{attribute:"toString", operator:"isEmpty"}`. -/
def toStringEmptyCondition : JsVal :=
  .obj [("attribute", .str "toString"), ("operator", .str "isEmpty")]

/-- The rule `{type:"rowCount", conditions:{and:[{attribute:"toString",
operator:"isEmpty"}]}}`, of a type the engine does not know. -/
def toStringGuardedRule : Proto.RuleObj :=
  { blankRuleObj with type := .str "rowCount",
                      conditions := singleCondition toStringEmptyCondition }

/-- The rule `{type:"sheetsExist", level:5, requiredSheets:["Customers"]}`. -/
def levelFiveRule : Proto.RuleObj :=
  { blankRuleObj with type := .str "sheetsExist", level := .num (.int 5),
                      requiredSheets := .arr [.str "Customers"] }

/-- The rules of the end-to-end example as rule objects, the first one
guarded by the condition on `env`, followed by a rule of unknown type. -/
def guardedCustomersRuleObjs : List Proto.RuleObj :=
  [ { blankRuleObj with type := .str "sheetsExist",
                        requiredSheets := .arr [.str "Customers", .str "Orders"],
                        conditions := singleCondition envProdCondition },
    { blankRuleObj with type := .str "sheetHasColumns", sheet := .str "Customers",
                        requiredColumns := .arr [.str "id", .str "name", .str "email"] },
    { blankRuleObj with type := .str "rowCount" } ]

/-- The rules of the end-to-end example as rule objects. -/
def customersRuleObjs : List Proto.RuleObj :=
  [ { blankRuleObj with type := .str "sheetsExist",
                        requiredSheets := .arr [.str "Customers", .str "Orders"] },
    { blankRuleObj with type := .str "sheetHasColumns", sheet := .str "Customers",
                        requiredColumns := .arr [.str "id", .str "name", .str "email"] } ]

/-- The data root `{S: [1, {x:1}]}`. -/
def primitiveFirstRoot : JsVal :=
  .obj [("S", .arr [.num (.int 1), .obj [("x", .num (.int 1))]])]

/-! ## Specification-side notions -/

/-- The logs a rule contributes to a run, in the words of the specification:
those of its executor when its condition holds and its type is one of the
two known ones, none otherwise. -/
def ruleContribution (host : Host) (root msg : JsVal) (rule : Rule) : List Log :=
  if evaluateRuleCondition host rule root msg then
    if rule.type.isStr "sheetsExist" then doSheetsExist rule root
    else if rule.type.isStr "sheetHasColumns" then doSheetHasColumns rule root
    else []
  else []

/-- The operator names of the source. -/
def knownOperators : List String :=
  ["==", "!=", "contains", "!contains", "regex", "isEmpty", "!isEmpty"]


/-- A sheet exists, in the words of the specification: it is defined and is
a non-empty array or a non-array object with at least one key. -/
def SheetPresent (sheet : JsVal) : Prop :=
  sheet ≠ .undefined ∧
    ((∃ x xs, sheet = .arr (x :: xs)) ∨ (∃ kv kvs, sheet = .obj (kv :: kvs)))

/-- A reload fails, in the words of the specification: the file is missing,
cannot be read, is not JSON, or has the wrong shape (neither an array nor an
object with an array `rules` field). -/
def LoadFails (files : Files) (path : String) : Prop :=
  files.existsSync path = false ∨
  files.readFileSync path = none ∨
  (∃ txt, files.readFileSync path = some txt ∧ files.jsonParse txt = none) ∨
  (∃ txt json, files.readFileSync path = some txt ∧ files.jsonParse txt = some json ∧
    json.isArray = false ∧ (getProp json "rules").isArray = false)

/-- The absolute path `a` lies inside the directory `u`, in the words of the
specification: it is `u` itself or a descendant of `u`. -/
def insideDir (u a : String) : Bool :=
  a == u || jsStartsWith a (u ++ "/")

namespace Proto

/-- The logs a rule contributes to a run, in the words of the specification:
those of its executor when its condition holds and its type is one of the
two known ones, none otherwise; or the error that its condition or its
executor raises. -/
def ruleContribution (realm : Realm) (host : Host) (root msg : JsVal) (rule : RuleObj) :
    Except String (List Log) :=
  match evaluateRuleCondition realm host rule root msg with
  | .error e => .error e
  | .ok false => .ok []
  | .ok true =>
    if rule.type.isStr "sheetsExist" then doSheetsExist realm rule root
    else if rule.type.isStr "sheetHasColumns" then doSheetHasColumns realm rule root
    else .ok []

/-- The logs of a contribution that raised nothing. -/
def logsOf : Except String (List Log) → List Log
  | .ok logs => logs
  | .error _ => []

end Proto

/-! ## Lemmas on the executors -/

theorem sheetExists_iff_present (sheet : JsVal) :
    sheetExists sheet = true ↔ SheetPresent sheet := by
  cases sheet with
  | arr xs =>
    cases xs <;>
      simp [sheetExists, SheetPresent, JsVal.isUndefined, JsVal.isArray, arrayLength, isObject,
        JsVal.truthy, JsVal.typeofObject, keyCount]
  | obj kvs =>
    cases kvs <;>
      simp [sheetExists, SheetPresent, JsVal.isUndefined, JsVal.isArray, arrayLength, isObject,
        JsVal.truthy, JsVal.typeofObject, keyCount]
  | _ =>
    simp [sheetExists, SheetPresent, JsVal.isUndefined, JsVal.isArray, arrayLength, isObject,
      JsVal.truthy, JsVal.typeofObject, keyCount]

theorem doSheetsExistLoop_eq (rule : Rule) (data : JsVal) (xs : List JsVal) (acc : List Log) :
    doSheetsExistLoop rule data xs acc = acc ++ xs.map (sheetEntry rule data) := by
  induction xs generalizing acc with
  | nil => simp [doSheetsExistLoop]
  | cons s rest ih => simp [doSheetsExistLoop, ih]

theorem columnsLoop_eq (rule : Rule) (sheetName sample : JsVal) (xs : List JsVal)
    (acc : List Log) :
    columnsLoop rule sheetName sample xs acc
      = acc ++ xs.map (columnEntry rule sheetName sample) := by
  induction xs generalizing acc with
  | nil => simp [columnsLoop]
  | cons c rest ih => simp [columnsLoop, ih]

theorem doSheetHasColumns_of_object_sample (rule : Rule) (data : JsVal)
    (hdef : (optGet data (sheetNameOf rule)).isUndefined = false)
    (hobj : isObject (sampleRow (optGet data (sheetNameOf rule))) = true) :
    doSheetHasColumns rule data
      = (arrayOrEmpty rule.requiredColumns).map
          (columnEntry rule (sheetNameOf rule) (sampleRow (optGet data (sheetNameOf rule)))) := by
  simp [doSheetHasColumns, hdef, hobj, columnsLoop_eq]

theorem sampleRow_cons (x : JsVal) (t : List JsVal) : sampleRow (.arr (x :: t)) = x := rfl

theorem summarizeLoop_eq (logs : List Log) (out : Counts) :
    summarizeLoop logs out =
      { info := out.info + logs.countP (fun l => l.level != "error" && l.level != "warning"),
        warning := out.warning + logs.countP (fun l => l.level == "warning"),
        error := out.error + logs.countP (fun l => l.level == "error"),
        total := out.total } := by
  induction logs generalizing out with
  | nil => simp [summarizeLoop]
  | cons l rest ih =>
    by_cases he : l.level = "error"
    · simp [summarizeLoop, ih, he, List.countP_cons, Nat.add_assoc, Nat.add_comm]
    · by_cases hw : l.level = "warning"
      · simp [summarizeLoop, ih, hw, List.countP_cons, Nat.add_assoc, Nat.add_comm]
      · simp [summarizeLoop, ih, he, hw, List.countP_cons, Nat.add_assoc, Nat.add_comm]

theorem level_classes_partition (logs : List Log) :
    logs.countP (fun l => l.level != "error" && l.level != "warning")
      + logs.countP (fun l => l.level == "warning")
      + logs.countP (fun l => l.level == "error") = logs.length := by
  induction logs with
  | nil => simp
  | cons l rest ih =>
    by_cases he : l.level = "error"
    · simp [List.countP_cons, he]; omega
    · by_cases hw : l.level = "warning"
      · simp [List.countP_cons, hw]; omega
      · simp [List.countP_cons, he, hw]; omega

theorem dispatchRule_eq (host : Host) (rule : Rule) (root msg : JsVal) (logs : List Log) :
    dispatchRule host rule root msg logs = logs ++ ruleContribution host root msg rule := by
  unfold dispatchRule ruleContribution
  cases evaluateRuleCondition host rule root msg <;>
    cases rule.type.isStr "sheetsExist" <;>
      cases rule.type.isStr "sheetHasColumns" <;> simp

theorem ruleLoop_eq (host : Host) (defaultLevel : String) (root msg : JsVal)
    (rules : List Rule) (acc : List Log) :
    ruleLoop host defaultLevel root msg rules acc
      = (rules.map (defaultRuleLevel defaultLevel),
         acc ++ (rules.map (defaultRuleLevel defaultLevel)).flatMap
           (ruleContribution host root msg)) := by
  induction rules generalizing acc with
  | nil => simp [ruleLoop]
  | cons rule rest ih => simp [ruleLoop, ih, dispatchRule_eq, List.append_assoc]

theorem isObject_eq_true_iff (v : JsVal) : isObject v = true ↔ ∃ kvs, v = .obj kvs := by
  cases v with
  | bool b => cases b <;> simp [isObject, JsVal.truthy, JsVal.typeofObject, JsVal.isArray]
  | num n => cases n <;> simp [isObject, JsVal.truthy, JsVal.typeofObject, JsVal.isArray]
  | _ => simp [isObject, JsVal.truthy, JsVal.typeofObject, JsVal.isArray]

theorem envGuard_false (host : Host) (rule : Rule) (root msg : JsVal)
    (hroot : isObject root = true) (henv : (getProp root "env").isUndefined = true) :
    evaluateRuleCondition host { rule with conditions := singleCondition envProdCondition }
      root msg = false := by
  obtain ⟨kvs, rfl⟩ := (isObject_eq_true_iff root).1 hroot
  have hsplit : splitDots "env" = ["env"] := by decide
  have hcond : firstCondition { rule with conditions := singleCondition envProdCondition }
      = envProdCondition := rfl
  have hundef : getProp (.obj kvs) "env" = .undefined := by
    cases h : getProp (.obj kvs) "env" <;> simp_all [JsVal.isUndefined]
  simp only [evaluateRuleCondition, hcond]
  simp [envProdCondition, getProp, lookupKey, JsVal.or, JsVal.truthy, getByPath, jsToString,
    hsplit, walkPath, JsVal.typeofObject, resolveTyped, applyOp, coerceToString]
  simp [getProp] at hundef
  simp [hundef, coerceToString]

theorem includesChars_iff_block (a b : List Char) :
    includesChars a b = true ↔ b <:+: a := by
  induction a with
  | nil => simp [includesChars, List.isEmpty_iff]
  | cons c a ih =>
    simp only [includesChars, Bool.or_eq_true, ih, List.infix_cons_iff,
      List.isPrefixOf_iff_prefix]

theorem jsIncludes_iff_substring (a b : String) :
    jsIncludes a b = true ↔ ∃ p q : String, a = p ++ b ++ q := by
  unfold jsIncludes
  rw [includesChars_iff_block]
  constructor
  · rintro ⟨p, q, h⟩
    refine ⟨String.mk p, String.mk q, ?_⟩
    apply String.ext
    simp [String.data_append, h]
  · rintro ⟨p, q, h⟩
    refine ⟨p.data, q.data, ?_⟩
    rw [h]
    simp [String.data_append]

theorem trimChars_eq_nil_iff (l : List Char) :
    ((l.dropWhile isJsSpace).reverse.dropWhile isJsSpace).reverse = []
      ↔ ∀ c ∈ l, isJsSpace c = true := by
  constructor
  · intro h
    have h1 : (l.dropWhile isJsSpace).reverse.dropWhile isJsSpace = [] := by
      simpa using h
    have h2 : ∀ c ∈ l.dropWhile isJsSpace, isJsSpace c = true := by
      intro c hc
      exact (List.dropWhile_eq_nil_iff.1 h1) c (List.mem_reverse.2 hc)
    have h3 : l.dropWhile isJsSpace = [] := by
      cases hd : l.dropWhile isJsSpace with
      | nil => rfl
      | cons x t =>
        have hne : l.dropWhile isJsSpace ≠ [] := by simp [hd]
        have hnot := List.head_dropWhile_not isJsSpace l hne
        have hx : isJsSpace ((l.dropWhile isJsSpace).head hne) = true :=
          h2 _ (List.head_mem hne)
        simp [hx] at hnot
    exact List.dropWhile_eq_nil_iff.1 h3
  · intro h
    have h3 : l.dropWhile isJsSpace = [] := List.dropWhile_eq_nil_iff.2 h
    simp [h3]

theorem jsTrim_eq_empty_iff (s : String) :
    jsTrim s = "" ↔ ∀ c ∈ s.data, isJsSpace c = true := by
  rw [← trimChars_eq_nil_iff]
  unfold jsTrim
  constructor
  · intro h
    have := congrArg String.data h
    simpa using this
  · intro h
    rw [h]

theorem applyOp_unknown (host : Host) (actual rhs : JsVal) (op : String)
    (hop : op ∉ knownOperators) : applyOp host actual (.str op) rhs = true := by
  simp only [knownOperators, List.mem_cons, List.mem_singleton, not_or, List.mem_nil_iff,
    or_false] at hop
  obtain ⟨h1, h2, h3, h4, h5, h6, h7⟩ := hop
  unfold applyOp
  split <;> simp_all

theorem msgSheetExists_ne_missing (s : JsVal) : msgSheetExists s ≠ msgSheetMissing s := by
  intro h
  have h2 := congrArg String.data h
  simp [msgSheetExists, msgSheetMissing, String.data_append] at h2

theorem msgColumnFound_ne_missing (col sheetName : JsVal) :
    msgColumnFound col sheetName ≠ msgColumnMissing col sheetName := by
  intro h
  have h2 := congrArg String.data h
  simp [msgColumnFound, msgColumnMissing, String.data_append] at h2

/-! ## The end-to-end example and the levels of entries -/

/-- Claim C1, evaluated on the code: on the data root
`{Customers:[{id:1,name:"A"}]}` with the two rules of the example and
default level "error", the handler returns five entries (Customers exists,
Orders missing, id found, name found, email missing), every one of them
with level "error", and the counts are `{info:0, warning:0, error:5,
total:5}`; the levels info, error, info, info, error and the counts
`{info:3, warning:0, error:2, total:5}` are not what the code yields. -/
theorem endToEnd_customers_all_error (host : Host) (msg : JsVal) :
    let result := (onInput host (editorNode customersRules "error") customersRoot msg).2
    result.logs.map (fun l => l.level) = ["error", "error", "error", "error", "error"] ∧
    result.logs.map (fun l => l.message) =
      ["Sheet 'Customers' exists and is not empty.", "Sheet 'Orders' is missing or empty.",
       "Column 'id' found in 'Customers'.", "Column 'name' found in 'Customers'.",
       "Missing column 'email' in 'Customers'."] ∧
    result.counts = { info := 0, warning := 0, error := 5, total := 5 } ∧
    result.logs.map (fun l => l.level) ≠ ["info", "error", "info", "info", "error"] ∧
    result.counts ≠ { info := 3, warning := 0, error := 2, total := 5 } := by
  have hlogs : (onInput host (editorNode customersRules "error") customersRoot msg).2
      = (onInput emptyHost (editorNode customersRules "error") customersRoot .null).2 := rfl
  simp only [hlogs]
  decide

/-- Claim C2, evaluated on the code: for a rule whose level is "error" the
entry `doSheetsExist` emits for a sheet that exists has level "error", and
for a rule whose level is "warning" the entry `doSheetHasColumns` emits for
a column that is present has level "warning"; neither has level "info". -/
theorem passing_entries_carry_rule_level :
    (doSheetsExist { blankRule with level := some "error", requiredSheets := .arr [.str "A"] }
        sheetsAB).map (fun l => (l.level, l.message))
      = [("error", "Sheet 'A' exists and is not empty.")] ∧
    (doSheetHasColumns { blankRule with level := some "warning", sheet := .str "Sheet1",
                                        requiredColumns := .arr [.str "x"] }
        sheet1Root).map (fun l => (l.level, l.message))
      = [("warning", "Column 'x' found in 'Sheet1'.")] := by
  decide

/-! ## Sheet existence -/

/-- Claim C3: `doSheetsExist` returns one entry per element of
`rule.requiredSheets`, in order (none when `requiredSheets` is not an
array); the entry of a sheet name carries the "exists and is not empty"
message exactly when `data[name]` is defined and is a non-empty array or a
non-array object with at least one key, and the "is missing or empty"
message otherwise.  On `{A:[{}], B:[]}` with required sheets A, B, C the
messages are: A exists, B missing or empty, C missing or empty. -/
theorem doSheetsExist_one_entry_per_sheet (rule : Rule) (data : JsVal) :
    doSheetsExist rule data = (arrayOrEmpty rule.requiredSheets).map (sheetEntry rule data) ∧
    (doSheetsExist rule data).length = (arrayOrEmpty rule.requiredSheets).length ∧
    (rule.requiredSheets.isArray = false → doSheetsExist rule data = []) ∧
    (∀ s, (sheetEntry rule data s).message = msgSheetExists s ↔ SheetPresent (optGet data s)) ∧
    (∀ s, (sheetEntry rule data s).message = msgSheetMissing s ↔ ¬ SheetPresent (optGet data s)) ∧
    (doSheetsExist { rule with requiredSheets := .arr [.str "A", .str "B", .str "C"] }
        sheetsAB).map (fun l => l.message)
      = ["Sheet 'A' exists and is not empty.", "Sheet 'B' is missing or empty.",
         "Sheet 'C' is missing or empty."] := by
  have hmap : doSheetsExist rule data
      = (arrayOrEmpty rule.requiredSheets).map (sheetEntry rule data) := by
    simp [doSheetsExist, doSheetsExistLoop_eq]
  have hex : ∀ s, (sheetEntry rule data s).message = msgSheetExists s
      ↔ SheetPresent (optGet data s) := by
    intro s
    rw [← sheetExists_iff_present]
    cases hs : sheetExists (optGet data s)
    · simp [sheetEntry, makeLog, hs, (msgSheetExists_ne_missing s).symm]
    · simp [sheetEntry, makeLog, hs]
  have hmiss : ∀ s, (sheetEntry rule data s).message = msgSheetMissing s
      ↔ ¬ SheetPresent (optGet data s) := by
    intro s
    rw [← sheetExists_iff_present]
    cases hs : sheetExists (optGet data s)
    · simp [sheetEntry, makeLog, hs]
    · simp [sheetEntry, makeLog, hs, msgSheetExists_ne_missing s]
  refine ⟨hmap, ?_, ?_, hex, hmiss, ?_⟩
  · simp [hmap]
  · intro hreq
    rw [hmap]
    cases hr : rule.requiredSheets <;> simp_all [JsVal.isArray, arrayOrEmpty]
  · simp only [doSheetsExist, doSheetsExistLoop_eq, arrayOrEmpty, List.nil_append, List.map_map]
    simp only [List.map, Function.comp, sheetEntry, makeLog]
    decide

/-- The statement of claim C3 at a rule without `requiredSheets`: no entry. -/
theorem doSheetsExist_one_entry_per_sheet_witness :
    blankRule.requiredSheets.isArray = false ∧ doSheetsExist blankRule sheetsAB = [] :=
  ⟨by decide, (doSheetsExist_one_entry_per_sheet blankRule sheetsAB).2.2.1 (by decide)⟩

/-! ## Column presence -/

/-- Claim C4: when `data[rule.sheet]` (the sheet name defaulting to the empty
string, as in the source) is defined and its sample row, the first element
of an array sheet or else the sheet itself, is a non-array object,
`doSheetHasColumns` returns one entry per element of `rule.requiredColumns`,
in order; the entry of a column carries the "Column found" message exactly
when `hasPath(sample, column)` holds and the "Missing column" message
otherwise.  On `{Sheet1:[{x:1,y:2}]}` with columns x, y, z the messages are
found, found, missing. -/
theorem doSheetHasColumns_one_entry_per_column (rule : Rule) (data : JsVal)
    (hdef : (optGet data (sheetNameOf rule)).isUndefined = false)
    (hobj : isObject (sampleRow (optGet data (sheetNameOf rule))) = true) :
    doSheetHasColumns rule data
      = (arrayOrEmpty rule.requiredColumns).map
          (columnEntry rule (sheetNameOf rule) (sampleRow (optGet data (sheetNameOf rule)))) ∧
    (doSheetHasColumns rule data).length = (arrayOrEmpty rule.requiredColumns).length ∧
    (∀ sheetName sample col,
      (columnEntry rule sheetName sample col).message = msgColumnFound col sheetName
        ↔ hasPath sample col = true) ∧
    (∀ sheetName sample col,
      (columnEntry rule sheetName sample col).message = msgColumnMissing col sheetName
        ↔ hasPath sample col = false) ∧
    (doSheetHasColumns { rule with sheet := .str "Sheet1",
                                   requiredColumns := .arr [.str "x", .str "y", .str "z"] }
        sheet1Root).map (fun l => l.message)
      = ["Column 'x' found in 'Sheet1'.", "Column 'y' found in 'Sheet1'.",
         "Missing column 'z' in 'Sheet1'."] := by
  have hmap := doSheetHasColumns_of_object_sample rule data hdef hobj
  refine ⟨hmap, by simp [hmap], ?_, ?_, ?_⟩
  · intro sheetName sample col
    cases hs : hasPath sample col
    · simp [columnEntry, makeLog, hs, (msgColumnFound_ne_missing col sheetName).symm]
    · simp [columnEntry, makeLog, hs]
  · intro sheetName sample col
    cases hs : hasPath sample col
    · simp [columnEntry, makeLog, hs]
    · simp [columnEntry, makeLog, hs, msgColumnFound_ne_missing col sheetName]
  · have hname : ∀ cols : JsVal,
        sheetNameOf { rule with sheet := .str "Sheet1", requiredColumns := cols }
          = .str "Sheet1" := fun _ => rfl
    have hrun := fun (cols : JsVal) =>
      doSheetHasColumns_of_object_sample
        { rule with sheet := .str "Sheet1", requiredColumns := cols } sheet1Root rfl rfl
    rw [hrun]
    simp only [hname, arrayOrEmpty, List.map, columnEntry, makeLog]
    decide

/-- The statement of claim C4 at the rule `{sheet:"Sheet1",
requiredColumns:["x","y","z"]}` and the data root `{Sheet1:[{x:1,y:2}]}`. -/
theorem doSheetHasColumns_one_entry_per_column_witness :
    (optGet sheet1Root (sheetNameOf sheet1Rule)).isUndefined = false ∧
    isObject (sampleRow (optGet sheet1Root (sheetNameOf sheet1Rule))) = true ∧
    (doSheetHasColumns sheet1Rule sheet1Root).length
      = (arrayOrEmpty sheet1Rule.requiredColumns).length :=
  ⟨by decide, by decide,
    (doSheetHasColumns_one_entry_per_column sheet1Rule sheet1Root (by decide) (by decide)).2.1⟩

theorem sheetText_ne_columnText (name col n : JsVal) (tail : String) :
    "Sheet '" ++ jsToString name ++ tail ≠ msgColumnFound col n ∧
    "Sheet '" ++ jsToString name ++ tail ≠ msgColumnMissing col n := by
  constructor
  · intro h
    have h2 := congrArg String.data h
    simp [msgColumnFound, String.data_append] at h2
  · intro h
    have h2 := congrArg String.data h
    simp [msgColumnMissing, String.data_append] at h2

/-- Claim C5: if `data[rule.sheet]` (the sheet name defaulting to the empty
string, as in the source) is undefined, `doSheetHasColumns` returns exactly
one entry, the failure whose message is `Sheet '<name>' not found.`; if the
sheet is defined but its sample row is not a non-array object, it returns
exactly one entry, the failure whose message is `Sheet '<name>' has no
object rows to inspect.`.  In both cases the result is the same whatever
`requiredColumns` is, and its entry is no column entry.  An empty array, and
an array whose first element is `null`, a boolean, a number, a string or an
array, have such a sample row.  On `{A:[{}], B:[]}` the sheet C gives
`Sheet 'C' not found.` and the sheet B gives `Sheet 'B' has no object rows
to inspect.`; on `{S:[1,{x:1}]}` the sheet S gives `Sheet 'S' has no object
rows to inspect.`. -/
theorem doSheetHasColumns_single_failure (rule : Rule) (data : JsVal) :
    ((optGet data (sheetNameOf rule)).isUndefined = true →
      doSheetHasColumns rule data
        = [makeLog rule (levelOr rule.level "error")
            ("Sheet '" ++ jsToString (sheetNameOf rule) ++ "' not found.")] ∧
      (doSheetHasColumns rule data).map (fun l => l.message)
        = ["Sheet '" ++ jsToString (sheetNameOf rule) ++ "' not found."] ∧
      (∀ cols : JsVal,
        doSheetHasColumns { rule with requiredColumns := cols } data
          = doSheetHasColumns rule data) ∧
      (∀ l ∈ doSheetHasColumns rule data, ∀ col n : JsVal,
        l.message ≠ msgColumnFound col n ∧ l.message ≠ msgColumnMissing col n)) ∧
    ((optGet data (sheetNameOf rule)).isUndefined = false →
      isObject (sampleRow (optGet data (sheetNameOf rule))) = false →
      doSheetHasColumns rule data
        = [makeLog rule (levelOr rule.level "error")
            ("Sheet '" ++ jsToString (sheetNameOf rule) ++ "' has no object rows to inspect.")] ∧
      (doSheetHasColumns rule data).map (fun l => l.message)
        = ["Sheet '" ++ jsToString (sheetNameOf rule) ++ "' has no object rows to inspect."] ∧
      (∀ cols : JsVal,
        doSheetHasColumns { rule with requiredColumns := cols } data
          = doSheetHasColumns rule data) ∧
      (∀ l ∈ doSheetHasColumns rule data, ∀ col n : JsVal,
        l.message ≠ msgColumnFound col n ∧ l.message ≠ msgColumnMissing col n)) ∧
    (∀ level message, (makeLog rule level message).message = message) ∧
    isObject (sampleRow (.arr [])) = false ∧
    (∀ t, isObject (sampleRow (.arr (.null :: t))) = false) ∧
    (∀ b t, isObject (sampleRow (.arr (.bool b :: t))) = false) ∧
    (∀ n t, isObject (sampleRow (.arr (.num n :: t))) = false) ∧
    (∀ s t, isObject (sampleRow (.arr (.str s :: t))) = false) ∧
    (∀ xs t, isObject (sampleRow (.arr (.arr xs :: t))) = false) ∧
    (doSheetHasColumns (columnsRuleOn "C") sheetsAB).map (fun l => (l.level, l.message))
      = [("error", "Sheet 'C' not found.")] ∧
    (doSheetHasColumns (columnsRuleOn "B") sheetsAB).map (fun l => (l.level, l.message))
      = [("error", "Sheet 'B' has no object rows to inspect.")] ∧
    (doSheetHasColumns (columnsRuleOn "S") primitiveFirstRoot).map
        (fun l => (l.level, l.message))
      = [("error", "Sheet 'S' has no object rows to inspect.")] := by
  have hname : ∀ cols : JsVal,
      sheetNameOf { rule with requiredColumns := cols } = sheetNameOf rule := fun _ => rfl
  have hmake : ∀ (cols : JsVal) (level message : String),
      makeLog { rule with requiredColumns := cols } level message
        = makeLog rule level message := fun _ _ _ => rfl
  refine ⟨?_, ?_, fun _ _ => rfl, by decide, ?_, ?_, ?_, ?_, ?_, by decide, by decide,
    by decide⟩
  · intro hundef
    have hrun : doSheetHasColumns rule data
        = [makeLog rule (levelOr rule.level "error")
            ("Sheet '" ++ jsToString (sheetNameOf rule) ++ "' not found.")] := by
      simp [doSheetHasColumns, hundef, msgSheetNotFound]
    refine ⟨hrun, ?_, ?_, ?_⟩
    · rw [hrun]
      rfl
    · intro cols
      rw [hrun]
      simp [doSheetHasColumns, hname, hundef, msgSheetNotFound, hmake]
    · intro l hl col n
      rw [hrun, List.mem_singleton] at hl
      rw [hl]
      exact sheetText_ne_columnText (sheetNameOf rule) col n "' not found."
  · intro hdef hobj
    have hrun : doSheetHasColumns rule data
        = [makeLog rule (levelOr rule.level "error")
            ("Sheet '" ++ jsToString (sheetNameOf rule)
              ++ "' has no object rows to inspect.")] := by
      simp [doSheetHasColumns, hdef, hobj, msgNoObjectRows]
    refine ⟨hrun, ?_, ?_, ?_⟩
    · rw [hrun]
      rfl
    · intro cols
      rw [hrun]
      simp [doSheetHasColumns, hname, hdef, hobj, msgNoObjectRows, hmake]
    · intro l hl col n
      rw [hrun, List.mem_singleton] at hl
      rw [hl]
      exact sheetText_ne_columnText (sheetNameOf rule) col n
        "' has no object rows to inspect."
  · intro t; rw [sampleRow_cons]; rfl
  · intro b t; rw [sampleRow_cons]; cases b <;> rfl
  · intro n t; rw [sampleRow_cons]; simp [isObject, JsVal.typeofObject]
  · intro s t; rw [sampleRow_cons]; simp [isObject, JsVal.typeofObject]
  · intro xs t; rw [sampleRow_cons]; simp [isObject, JsVal.isArray]

/-- The statement of claim C5 on the data root `{A:[{}], B:[]}`: the sheet C
is absent, the sheet B is an empty array. -/
theorem doSheetHasColumns_single_failure_witness :
    ((optGet sheetsAB (sheetNameOf (columnsRuleOn "C"))).isUndefined = true ∧
      (doSheetHasColumns (columnsRuleOn "C") sheetsAB).map (fun l => l.message)
        = ["Sheet '" ++ jsToString (sheetNameOf (columnsRuleOn "C")) ++ "' not found."] ∧
      "Sheet '" ++ jsToString (sheetNameOf (columnsRuleOn "C")) ++ "' not found."
        = "Sheet 'C' not found.") ∧
    ((optGet sheetsAB (sheetNameOf (columnsRuleOn "B"))).isUndefined = false ∧
      isObject (sampleRow (optGet sheetsAB (sheetNameOf (columnsRuleOn "B")))) = false ∧
      (doSheetHasColumns (columnsRuleOn "B") sheetsAB).map (fun l => l.message)
        = ["Sheet '" ++ jsToString (sheetNameOf (columnsRuleOn "B"))
            ++ "' has no object rows to inspect."] ∧
      "Sheet '" ++ jsToString (sheetNameOf (columnsRuleOn "B"))
          ++ "' has no object rows to inspect."
        = "Sheet 'B' has no object rows to inspect.") :=
  ⟨⟨by decide,
    ((doSheetHasColumns_single_failure (columnsRuleOn "C") sheetsAB).1 (by decide)).2.1,
    by decide⟩,
   ⟨by decide, by decide,
    ((doSheetHasColumns_single_failure (columnsRuleOn "B") sheetsAB).2.1 (by decide)
      (by decide)).2.1,
    by decide⟩⟩

/-! ## The summary -/

/-- Claim C6: for every list of log entries, `summarize` counts as `error`
the entries whose level is exactly "error", as `warning` those whose level is
exactly "warning" and as `info` all the others; `total` is the sum of the
three and equals the length of the list; on the empty list all four counts
are zero. -/
theorem summarize_counts_each_entry_once (logs : List Log) :
    (summarize logs).error = logs.countP (fun l => l.level == "error") ∧
    (summarize logs).warning = logs.countP (fun l => l.level == "warning") ∧
    (summarize logs).info
      = logs.countP (fun l => l.level != "error" && l.level != "warning") ∧
    (summarize logs).total
      = (summarize logs).info + (summarize logs).warning + (summarize logs).error ∧
    (summarize logs).total = logs.length ∧
    summarize [] = { info := 0, warning := 0, error := 0, total := 0 } := by
  have hpart := level_classes_partition logs
  simp only [summarize, summarizeLoop_eq]
  refine ⟨by simp, by simp, by simp, by simp, ?_, by decide⟩
  simp only [Nat.zero_add]
  exact hpart

/-! ## The rule loop -/

theorem member_eq_undefined (m : Member) (h : m.isUndefined = true) : m = .val .undefined := by
  cases m with
  | val v => cases v <;> simp_all [Member.isUndefined, JsVal.isUndefined]
  | fn => simp [Member.isUndefined] at h
  | proto kind => simp [Member.isUndefined] at h

theorem proto_dispatchRule_eq (realm : Realm) (host : Host) (rule : Proto.RuleObj)
    (root msg : JsVal) (logs : List Log) :
    Proto.dispatchRule realm host rule root msg logs
      = match Proto.ruleContribution realm host root msg rule with
        | .error e => .error e
        | .ok added => .ok (logs ++ added) := by
  unfold Proto.dispatchRule Proto.ruleContribution
  cases hc : Proto.evaluateRuleCondition realm host rule root msg with
  | error e => rfl
  | ok b =>
    cases b with
    | false => simp
    | true =>
      cases h1 : rule.type.isStr "sheetsExist"
      · cases h2 : rule.type.isStr "sheetHasColumns"
        · simp
        · simp
      · simp

theorem proto_ruleLoop_ok (realm : Realm) (host : Host) (defaultLevel root msg : JsVal)
    (per : Proto.RuleObj → List Log) (rules : List Proto.RuleObj) (acc : List Log)
    (h : ∀ r ∈ rules.map (Proto.defaultRuleLevel defaultLevel),
      Proto.ruleContribution realm host root msg r = .ok (per r)) :
    Proto.ruleLoop realm host defaultLevel root msg rules acc
      = (rules.map (Proto.defaultRuleLevel defaultLevel),
         .ok (acc ++ (rules.map (Proto.defaultRuleLevel defaultLevel)).flatMap per)) := by
  induction rules generalizing acc with
  | nil => simp [Proto.ruleLoop]
  | cons rule rest ih =>
    have hhead := h (Proto.defaultRuleLevel defaultLevel rule) (by simp)
    have htail : ∀ r ∈ rest.map (Proto.defaultRuleLevel defaultLevel),
        Proto.ruleContribution realm host root msg r = .ok (per r) := by
      intro r hr
      exact h r (by simp only [List.map_cons, List.mem_cons]; exact Or.inr hr)
    simp only [Proto.ruleLoop, proto_dispatchRule_eq, hhead, ih _ htail]
    simp [List.append_assoc]

theorem proto_ruleLoop_raised (realm : Realm) (host : Host) (defaultLevel root msg : JsVal)
    (rules : List Proto.RuleObj) (acc : List Log) :
    Proto.raised (Proto.ruleLoop realm host defaultLevel root msg rules acc).2 = true
      ↔ ∃ r ∈ rules.map (Proto.defaultRuleLevel defaultLevel),
          Proto.raised (Proto.ruleContribution realm host root msg r) = true := by
  induction rules generalizing acc with
  | nil => simp [Proto.ruleLoop, Proto.raised]
  | cons rule rest ih =>
    simp only [Proto.ruleLoop, proto_dispatchRule_eq, List.map_cons, List.mem_cons,
      exists_eq_or_imp]
    have hok : ∀ (ls : List Log), Proto.raised (Except.ok ls : Except String (List Log))
        = false := fun _ => rfl
    cases hc : Proto.ruleContribution realm host root msg
        (Proto.defaultRuleLevel defaultLevel rule) with
    | error e => simp [Proto.raised]
    | ok added => simp [hok, ih]

theorem proto_envGuard_false (realm : Realm) (host : Host) (rule : Proto.RuleObj)
    (root msg : JsVal) (hroot : isObject root = true)
    (henv : (Proto.getMember realm (.val root) "env").isUndefined = true) :
    Proto.evaluateRuleCondition realm host
      { rule with conditions := singleCondition envProdCondition } root msg = .ok false := by
  obtain ⟨kvs, rfl⟩ := (isObject_eq_true_iff root).1 hroot
  have hsplit : splitDots "env" = ["env"] := by decide
  have hcond : Proto.firstCondition { rule with conditions := singleCondition envProdCondition }
      = envProdCondition := rfl
  have hmem := member_eq_undefined _ henv
  simp only [Proto.evaluateRuleCondition, hcond]
  simp [envProdCondition, getProp, lookupKey, JsVal.or, JsVal.truthy, Proto.getByPath,
    jsToString, hsplit, Proto.walkPath, Member.truthy, Member.typeofObject,
    JsVal.typeofObject, resolveTyped, Proto.applyOp, hmem, Proto.coerceToString,
    coerceToString]

theorem proto_applyOp_raised (host : Host) (actual : Member) (op rhs : JsVal)
    (h : Proto.raised (Proto.applyOp host actual op rhs) = true) : actual.isFn = true := by
  cases actual with
  | fn => rfl
  | val v =>
    exfalso
    unfold Proto.applyOp at h
    simp only [Proto.coerceToString] at h
    split at h <;> (try split at h) <;> simp_all [Proto.raised]
  | proto kind =>
    exfalso
    unfold Proto.applyOp at h
    simp only [Proto.coerceToString] at h
    split at h <;> (try split at h) <;> simp_all [Proto.raised]

theorem proto_evaluateRuleCondition_raised (realm : Realm) (host : Host)
    (rule : Proto.RuleObj) (root msg : JsVal)
    (h : Proto.raised (Proto.evaluateRuleCondition realm host rule root msg) = true) :
    (Proto.getByPath realm (.val root)
      (JsVal.or (getProp (Proto.firstCondition rule) "attribute") (.str ""))).isFn = true := by
  unfold Proto.evaluateRuleCondition at h
  cases hc : (Proto.firstCondition rule).truthy
  · simp [hc, Proto.raised] at h
  · simp only [hc, Bool.not_true, Bool.false_eq_true, if_false] at h
    exact proto_applyOp_raised host _ _ _ h

theorem or_of_falsy (a b : JsVal) (h : a.truthy = false) : JsVal.or a b = b := by
  simp [JsVal.or, h]

theorem or_of_truthy (a b : JsVal) (h : a.truthy = true) : JsVal.or a b = a := by
  simp [JsVal.or, h]

theorem proto_makeLog_ok (realm : Realm) (rule : Proto.RuleObj) (found : Bool)
    (message : String)
    (hl : (∃ s, rule.level = .str s) ∨ rule.level.truthy = false) :
    Proto.raised (Proto.makeLog realm rule
      (if found then .str "info" else JsVal.or rule.level (.str "error")) message) = false := by
  have hinfo : (JsVal.str "info").truthy = true := by decide
  have herror : (JsVal.str "error").truthy = true := by decide
  have hfalsy : rule.level.truthy = false →
      Proto.raised (Proto.makeLog realm rule
        (if found then .str "info" else JsVal.or rule.level (.str "error")) message)
        = false := by
    intro hf
    unfold Proto.makeLog
    cases found
    · simp only [Bool.false_eq_true, if_false, or_of_falsy _ _ hf, or_of_truthy _ _ herror]
      rfl
    · simp only [if_true, or_of_falsy _ _ hf, or_of_truthy _ _ hinfo]
      rfl
  rcases hl with ⟨s, hs⟩ | hf
  · by_cases hne : s = ""
    · exact hfalsy (by simp [hs, hne, JsVal.truthy])
    · have ht : (JsVal.str s).truthy = true := by simp [hne, JsVal.truthy]
      unfold Proto.makeLog
      simp only [hs, or_of_truthy _ _ ht]
      rfl
  · exact hfalsy hf

theorem proto_doSheetsExistLoop_ok (realm : Realm) (rule : Proto.RuleObj) (data : JsVal)
    (hl : (∃ s, rule.level = .str s) ∨ rule.level.truthy = false)
    (xs : List JsVal) (acc : List Log) :
    Proto.raised (Proto.doSheetsExistLoop realm rule data xs acc) = false := by
  induction xs generalizing acc with
  | nil => rfl
  | cons x rest ih =>
    have hentry : Proto.raised (Proto.sheetEntry realm rule data x) = false := by
      unfold Proto.sheetEntry
      exact proto_makeLog_ok realm rule _ _ hl
    unfold Proto.doSheetsExistLoop
    cases he : Proto.sheetEntry realm rule data x with
    | error e => simp [he, Proto.raised] at hentry
    | ok entry => simpa using ih _

theorem proto_columnsLoop_ok (realm : Realm) (rule : Proto.RuleObj) (sheetName : JsVal)
    (sample : Member) (hl : (∃ s, rule.level = .str s) ∨ rule.level.truthy = false)
    (xs : List JsVal) (acc : List Log) :
    Proto.raised (Proto.columnsLoop realm rule sheetName sample xs acc) = false := by
  induction xs generalizing acc with
  | nil => rfl
  | cons x rest ih =>
    have hentry : Proto.raised (Proto.columnEntry realm rule sheetName sample x) = false := by
      unfold Proto.columnEntry
      exact proto_makeLog_ok realm rule _ _ hl
    unfold Proto.columnsLoop
    cases he : Proto.columnEntry realm rule sheetName sample x with
    | error e => simp [he, Proto.raised] at hentry
    | ok entry => simpa using ih _

theorem proto_executors_ok (realm : Realm) (rule : Proto.RuleObj) (data : JsVal)
    (hl : (∃ s, rule.level = .str s) ∨ rule.level.truthy = false) :
    Proto.raised (Proto.doSheetsExist realm rule data) = false ∧
    Proto.raised (Proto.doSheetHasColumns realm rule data) = false := by
  refine ⟨proto_doSheetsExistLoop_ok realm rule data hl _ _, ?_⟩
  have hfail : ∀ message, Proto.raised (Proto.makeLog realm rule
      (JsVal.or rule.level (.str "error")) message) = false := by
    intro message
    simpa using proto_makeLog_ok realm rule false message hl
  unfold Proto.doSheetHasColumns
  simp only []
  split
  · have h := hfail (msgSheetNotFound (Proto.sheetNameOf rule))
    cases hm : Proto.makeLog realm rule (JsVal.or rule.level (.str "error"))
        (msgSheetNotFound (Proto.sheetNameOf rule)) with
    | error e => simp [hm, Proto.raised] at h
    | ok entry => rfl
  · split
    · have h := hfail (msgNoObjectRows (Proto.sheetNameOf rule))
      cases hm : Proto.makeLog realm rule (JsVal.or rule.level (.str "error"))
          (msgNoObjectRows (Proto.sheetNameOf rule)) with
      | error e => simp [hm, Proto.raised] at h
      | ok entry => rfl
    · exact proto_columnsLoop_ok realm rule _ _ hl _ _

/-- Claim C7 as stated fails on the valid data root of the end-to-end
example.  A rule of the unknown type "rowCount" guarded by
`{attribute:"toString", operator:"isEmpty"}` does not contribute zero logs
without error: the path `toString` resolves to the function the root
inherits, `coerceToString` of it is `undefined`, `trim` throws, and the
handler sends no validation result.  A rule `{type:"sheetsExist", level:5,
requiredSheets:["Customers"]}` raises too, in `makeLog`. -/
theorem inherited_function_aborts_run :
    isObject customersRoot = true ∧
    (Proto.getByPath es2023 (.val customersRoot) (.str "toString")).isFn = true ∧
    Proto.coerceToString (Proto.getByPath es2023 (.val customersRoot) (.str "toString"))
      = none ∧
    toStringGuardedRule.type.isStr "sheetsExist" = false ∧
    toStringGuardedRule.type.isStr "sheetHasColumns" = false ∧
    Proto.raised (Proto.evaluateRuleCondition es2023 emptyHost toStringGuardedRule
      customersRoot .null) = true ∧
    Proto.raised (Proto.onInput es2023 emptyHost
      (editorNodeObj [toStringGuardedRule] (.str "info")) customersRoot .null).2 = true ∧
    Proto.raised (Proto.onInput es2023 emptyHost
      (editorNodeObj [levelFiveRule] (.str "info")) customersRoot .null).2 = true := by
  decide

/-- Claim C7, amended: for a valid (non-array object) data root and a rule
list of which no rule raises an error, the handler returns a validation
result whose logs are the concatenation, in rule order, of the contributions
of the selected rules after level defaulting: `doSheetsExist(rule, root)`
for a rule of type "sheetsExist" and `doSheetHasColumns(rule, root)` for a
rule of type "sheetHasColumns" when the rule's condition evaluates to true,
and no log for a rule whose condition is false or whose type is anything
else.  The handler returns a result exactly when no rule raises; a condition
raises only when its attribute path resolves to a function, and an executor
does not raise when the level of the rule is a string or falsy.  A rule
guarded by `{attribute:"env", operator:"==", rhsType:"str", value:"prod"}`
on a root without an `env` member has a false condition and contributes no
log, whatever its type. -/
theorem onInput_logs_concatenate (realm : Realm) (host : Host) (node : Proto.Node)
    (root msg : JsVal) (hroot : isObject root = true) :
    ((∀ r ∈ (Proto.selectedRules node).map (Proto.defaultRuleLevel node.defaultLevel),
        Proto.raised (Proto.ruleContribution realm host root msg r) = false) →
      (Proto.onInput realm host node root msg).2
        = .ok { logs := ((Proto.selectedRules node).map
                          (Proto.defaultRuleLevel node.defaultLevel)).flatMap
                          (fun r => Proto.logsOf (Proto.ruleContribution realm host root msg r)),
                counts := summarize (((Proto.selectedRules node).map
                          (Proto.defaultRuleLevel node.defaultLevel)).flatMap
                          (fun r => Proto.logsOf
                            (Proto.ruleContribution realm host root msg r))) }) ∧
    (Proto.raised (Proto.onInput realm host node root msg).2 = true
      ↔ ∃ r ∈ (Proto.selectedRules node).map (Proto.defaultRuleLevel node.defaultLevel),
          Proto.raised (Proto.ruleContribution realm host root msg r) = true) ∧
    (∀ rule, Proto.evaluateRuleCondition realm host rule root msg = .ok false →
      Proto.ruleContribution realm host root msg rule = .ok []) ∧
    (∀ rule b, Proto.evaluateRuleCondition realm host rule root msg = .ok b →
      rule.type.isStr "sheetsExist" = false → rule.type.isStr "sheetHasColumns" = false →
      Proto.ruleContribution realm host root msg rule = .ok []) ∧
    (∀ rule, Proto.evaluateRuleCondition realm host rule root msg = .ok true →
      rule.type.isStr "sheetsExist" = true →
      Proto.ruleContribution realm host root msg rule = Proto.doSheetsExist realm rule root) ∧
    (∀ rule, Proto.evaluateRuleCondition realm host rule root msg = .ok true →
      rule.type.isStr "sheetHasColumns" = true →
      Proto.ruleContribution realm host root msg rule
        = Proto.doSheetHasColumns realm rule root) ∧
    (∀ rule : Proto.RuleObj, (Proto.getMember realm (.val root) "env").isUndefined = true →
      Proto.ruleContribution realm host root msg
        { rule with conditions := singleCondition envProdCondition } = .ok []) ∧
    (∀ rule, Proto.raised (Proto.evaluateRuleCondition realm host rule root msg) = true →
      (Proto.getByPath realm (.val root)
        (JsVal.or (getProp (Proto.firstCondition rule) "attribute") (.str ""))).isFn = true) ∧
    (∀ rule : Proto.RuleObj, ((∃ s, rule.level = .str s) ∨ rule.level.truthy = false) →
      Proto.raised (Proto.doSheetsExist realm rule root) = false ∧
      Proto.raised (Proto.doSheetHasColumns realm rule root) = false) ∧
    (match (Proto.onInput es2023 emptyHost
        (editorNodeObj guardedCustomersRuleObjs (.str "warning")) customersRoot .null).2 with
      | .ok result => result.logs.map (fun l => l.message)
      | .error e => [e])
      = ["Column 'id' found in 'Customers'.", "Column 'name' found in 'Customers'.",
         "Missing column 'email' in 'Customers'."] ∧
    (match (Proto.onInput es2023 emptyHost
        (editorNodeObj customersRuleObjs (.str "error")) customersRoot .null).2 with
      | .ok result => result.logs.map (fun l => (l.level, l.message))
      | .error e => [("raised", e)])
      = [("error", "Sheet 'Customers' exists and is not empty."),
         ("error", "Sheet 'Orders' is missing or empty."),
         ("error", "Column 'id' found in 'Customers'."),
         ("error", "Column 'name' found in 'Customers'."),
         ("error", "Missing column 'email' in 'Customers'.")] := by
  refine ⟨?_, ?_, ?_, ?_, ?_, ?_, ?_,
    fun rule h => proto_evaluateRuleCondition_raised realm host rule root msg h,
    fun rule hl => proto_executors_ok realm rule root hl, by decide, by decide⟩
  · intro hquiet
    have hper : ∀ r ∈ (Proto.selectedRules node).map
        (Proto.defaultRuleLevel node.defaultLevel),
        Proto.ruleContribution realm host root msg r
          = .ok (Proto.logsOf (Proto.ruleContribution realm host root msg r)) := by
      intro r hr
      have hq := hquiet r hr
      cases hc : Proto.ruleContribution realm host root msg r with
      | error e => simp [hc, Proto.raised] at hq
      | ok logs => rfl
    simp [Proto.onInput, hroot, proto_ruleLoop_ok realm host node.defaultLevel root msg
      (fun r => Proto.logsOf (Proto.ruleContribution realm host root msg r))
      (Proto.selectedRules node) [] hper]
  · rw [← proto_ruleLoop_raised realm host node.defaultLevel root msg
      (Proto.selectedRules node) []]
    simp only [Proto.onInput, hroot, Bool.not_true, Bool.false_eq_true, if_false]
    cases (Proto.ruleLoop realm host node.defaultLevel root msg
      (Proto.selectedRules node) []).2 <;> simp [Proto.raised]
  · intro rule hc
    simp [Proto.ruleContribution, hc]
  · intro rule b hc h1 h2
    cases b <;> simp [Proto.ruleContribution, hc, h1, h2]
  · intro rule hc h1
    simp [Proto.ruleContribution, hc, h1]
  · intro rule hc h2
    have h1 : rule.type.isStr "sheetsExist" = false := by
      cases ht : rule.type <;> simp_all [JsVal.isStr]
    simp [Proto.ruleContribution, hc, h1, h2]
  · intro rule henv
    have hfalse := proto_envGuard_false realm host rule root msg hroot henv
    simp [Proto.ruleContribution, hfalse]

/-- The statement of claim C7, amended, on the data root of the end-to-end
example and its rules, the first one guarded by the condition on `env`,
followed by a rule of unknown type: no rule raises, the handler returns a
result, and only the column rule contributes. -/
theorem onInput_logs_concatenate_witness :
    isObject customersRoot = true ∧
    (∀ r ∈ (Proto.selectedRules (editorNodeObj guardedCustomersRuleObjs (.str "warning"))).map
        (Proto.defaultRuleLevel (.str "warning")),
      Proto.raised (Proto.ruleContribution es2023 emptyHost customersRoot .null r) = false) ∧
    Proto.raised (Proto.onInput es2023 emptyHost
      (editorNodeObj guardedCustomersRuleObjs (.str "warning")) customersRoot .null).2
      = false ∧
    (Proto.getMember es2023 (.val customersRoot) "env").isUndefined = true ∧
    Proto.ruleContribution es2023 emptyHost customersRoot .null
      { blankRuleObj with conditions := singleCondition envProdCondition } = .ok [] :=
  ⟨by decide, by decide,
   by
    rw [(onInput_logs_concatenate es2023 emptyHost
      (editorNodeObj guardedCustomersRuleObjs (.str "warning"))
      customersRoot .null (by decide)).1 (by decide)]
    rfl,
   by decide,
   (onInput_logs_concatenate es2023 emptyHost
      (editorNodeObj guardedCustomersRuleObjs (.str "warning"))
      customersRoot .null (by decide)).2.2.2.2.2.2.1 blankRuleObj (by decide)⟩

/-- Claim C8: for a resolved data root that is not a non-array object
(`undefined`, `null`, a boolean, a number, a string or an array), whatever
the rules and the host, the handler returns the validation result with no
log and all counts zero and leaves the node, its rule objects included, as
it found it: no level is filled in. -/
theorem onInput_invalid_root (host : Host) (node : Node) (root msg : JsVal)
    (hroot : isObject root = false) :
    onInput host node root msg = (node, emptyValidation) ∧
    (onInput host node root msg).2.logs = [] ∧
    (onInput host node root msg).2.counts = { info := 0, warning := 0, error := 0, total := 0 } ∧
    selectedRules (onInput host node root msg).1 = selectedRules node ∧
    (∀ v : JsVal, isObject v = false ↔ ∀ kvs, v ≠ .obj kvs) := by
  have hrun : onInput host node root msg = (node, emptyValidation) := by
    simp [onInput, hroot]
  refine ⟨hrun, by rw [hrun]; rfl, by rw [hrun]; rfl, by rw [hrun], ?_⟩
  intro v
  have h := isObject_eq_true_iff v
  cases hv : isObject v
  · simp only [true_iff]
    intro kvs hk
    have hex : ∃ kvs, v = .obj kvs := ⟨kvs, hk⟩
    rw [← h, hv] at hex
    exact Bool.noConfusion hex
  · simp only [Bool.true_eq_false, false_iff, not_forall, not_not]
    exact h.1 hv

/-- The statement of claim C8 on an array as data root, with the rules of
the end-to-end example, none of which has a level. -/
theorem onInput_invalid_root_witness :
    isObject (.arr [customersRoot]) = false ∧
    onInput emptyHost (editorNode customersRules "error") (.arr [customersRoot]) .null
      = (editorNode customersRules "error", emptyValidation) :=
  ⟨by decide,
   (onInput_invalid_root emptyHost (editorNode customersRules "error") (.arr [customersRoot])
      .null (by decide)).1⟩

/-! ## The operator table -/

/-- Claim C9: with `A = coerceToString(actual)` and `B = coerceToString(rhs)`,
`applyOp` follows the operator table: "==" is `A = B` and "!=" its negation;
"contains" holds exactly when `B` is a substring of `A`, hence always when
`rhs` coerces to the empty string, as `null` and `undefined` do, and
"!contains" is its negation; "isEmpty" holds exactly when `A` trimmed is the
empty string, that is when `A` consists of white space only, whatever `rhs`
is, and "!isEmpty" is its negation. -/
theorem applyOp_operator_table (host : Host) (actual rhs : JsVal) :
    applyOp host actual (.str "==") rhs
      = decide (coerceToString actual = coerceToString rhs) ∧
    applyOp host actual (.str "!=") rhs = !applyOp host actual (.str "==") rhs ∧
    (applyOp host actual (.str "contains") rhs = true
      ↔ ∃ p q : String, coerceToString actual = p ++ coerceToString rhs ++ q) ∧
    (coerceToString rhs = "" → applyOp host actual (.str "contains") rhs = true) ∧
    coerceToString .null = "" ∧ coerceToString .undefined = "" ∧
    applyOp host actual (.str "!contains") rhs = !applyOp host actual (.str "contains") rhs ∧
    (applyOp host actual (.str "isEmpty") rhs = true ↔ jsTrim (coerceToString actual) = "") ∧
    (jsTrim (coerceToString actual) = ""
      ↔ ∀ c ∈ (coerceToString actual).data, isJsSpace c = true) ∧
    (∀ other, applyOp host actual (.str "isEmpty") other
      = applyOp host actual (.str "isEmpty") rhs) ∧
    applyOp host actual (.str "!isEmpty") rhs = !applyOp host actual (.str "isEmpty") rhs := by
  have hcontains : applyOp host actual (.str "contains") rhs = true
      ↔ ∃ p q : String, coerceToString actual = p ++ coerceToString rhs ++ q := by
    rw [← jsIncludes_iff_substring]
    simp [applyOp]
  refine ⟨rfl, rfl, hcontains, ?_, rfl, rfl, rfl, ?_, jsTrim_eq_empty_iff _, ?_, rfl⟩
  · intro hB
    rw [hcontains, hB]
    exact ⟨"", coerceToString actual, by simp⟩
  · simp [applyOp]
  · intro other
    simp [applyOp]

/-- The statement of claim C9 at `rhs = null`: every value contains it. -/
theorem applyOp_operator_table_witness :
    coerceToString .null = "" ∧
    applyOp emptyHost (.num (.int 42)) (.str "contains") .null = true :=
  ⟨by decide,
   (applyOp_operator_table emptyHost (.num (.int 42)) .null).2.2.2.1 (by decide)⟩

/-- Claim C10 as stated fails at the empty operator string: it is none of
the seven operator names and `applyOp` returns true on it, yet a rule whose
single condition is `{attribute:"env", operator:"", value:"prod"}` is skipped
on the data root `{}`, because the condition evaluator replaces an empty
operator by "==". -/
theorem empty_operator_rule_is_skipped :
    "" ∉ knownOperators ∧
    applyOp emptyHost .undefined (.str "") (.str "prod") = true ∧
    evaluateRuleCondition emptyHost
      { blankRule with conditions := singleCondition (envConditionWith "") }
      (.obj []) .null = false := by
  decide

/-- Claim C10, amended: for every operator string that is not one of ==, !=,
contains, !contains, regex, isEmpty, !isEmpty and for all values `actual`
and `rhs`, `applyOp` returns true; consequently a rule whose first condition
carries such an operator, the operator not being the empty string, is never
skipped by `evaluateRuleCondition`. -/
theorem unknown_operator_never_blocks (host : Host) (op : String)
    (hop : op ∉ knownOperators) :
    (∀ actual rhs, applyOp host actual (.str op) rhs = true) ∧
    (op ≠ "" → ∀ (rule : Rule) (root msg : JsVal),
      getProp (firstCondition rule) "operator" = .str op →
      evaluateRuleCondition host rule root msg = true) := by
  refine ⟨fun actual rhs => applyOp_unknown host actual rhs op hop, ?_⟩
  intro hne rule root msg hcond
  unfold evaluateRuleCondition
  cases hc : (firstCondition rule).truthy
  · simp [hc]
  · have hor : JsVal.or (.str op) (.str "==") = .str op := by
      simp [JsVal.or, JsVal.truthy, hne]
    simp only [hcond, hor]
    simp [applyOp_unknown host _ _ op hop]

/-- The statement of claim C10, amended, at the operator "bogus-op" and a
rule whose single condition is `{attribute:"env", operator:"bogus-op",
value:"prod"}`, on the data root `{}`. -/
theorem unknown_operator_never_blocks_witness :
    "bogus-op" ∉ knownOperators ∧ "bogus-op" ≠ "" ∧
    applyOp emptyHost .undefined (.str "bogus-op") (.str "prod") = true ∧
    evaluateRuleCondition emptyHost
      { blankRule with conditions := singleCondition (envConditionWith "bogus-op") }
      (.obj []) .null = true :=
  ⟨by decide, by decide,
   (unknown_operator_never_blocks emptyHost "bogus-op" (by decide)).1 .undefined (.str "prod"),
   (unknown_operator_never_blocks emptyHost "bogus-op" (by decide)).2 (by decide)
     { blankRule with conditions := singleCondition (envConditionWith "bogus-op") }
     (.obj []) .null rfl⟩

/-! ## The rule condition -/

theorem truthy_of_isUndefined (v : JsVal) (h : v.isUndefined = true) : v.truthy = false := by
  cases v <;> simp_all [JsVal.isUndefined, JsVal.truthy]

theorem evaluateRuleCondition_of_falsy (host : Host) (rule : Rule) (root msg : JsVal)
    (h : (firstCondition rule).truthy = false) :
    evaluateRuleCondition host rule root msg = true := by
  simp [evaluateRuleCondition, h]

theorem evaluateRuleCondition_congr (host : Host) (r1 r2 : Rule) (root msg : JsVal)
    (h : firstCondition r1 = firstCondition r2) :
    evaluateRuleCondition host r1 root msg = evaluateRuleCondition host r2 root msg := by
  simp [evaluateRuleCondition, h]

/-- Claim C11: a rule that has no `conditions` field, or whose `conditions`
has no `and`, or whose `conditions.and` has no first element, passes its
condition: `evaluateRuleCondition` returns true for every host, data root
and message, so the outcome depends neither on the data root nor on any
right-hand side.  The same holds whenever the first condition is falsy. -/
theorem evaluateRuleCondition_vacuous (host : Host) (rule : Rule) (root msg : JsVal) :
    (rule.conditions.isUndefined = true → evaluateRuleCondition host rule root msg = true) ∧
    ((getProp rule.conditions "and").isUndefined = true →
      evaluateRuleCondition host rule root msg = true) ∧
    ((getProp (getProp rule.conditions "and") "0").isUndefined = true →
      evaluateRuleCondition host rule root msg = true) ∧
    ((firstCondition rule).truthy = false → evaluateRuleCondition host rule root msg = true) := by
  refine ⟨?_, ?_, ?_, evaluateRuleCondition_of_falsy host rule root msg⟩
  · intro h
    apply evaluateRuleCondition_of_falsy
    simp [firstCondition, truthy_of_isUndefined _ h]
  · intro h
    apply evaluateRuleCondition_of_falsy
    unfold firstCondition
    cases hc : rule.conditions.truthy
    · simp [hc]
    · simp [hc, truthy_of_isUndefined _ h]
  · intro h
    apply evaluateRuleCondition_of_falsy
    unfold firstCondition
    cases hc : rule.conditions.truthy
    · simp [hc]
    · cases ha : (getProp rule.conditions "and").truthy
      · simp [hc, ha]
      · simp [hc, ha, truthy_of_isUndefined _ h]

/-- The statement of claim C11 at a rule without conditions, at a rule
whose conditions are `{}` and at a rule whose conditions are `{and: []}`, on
the data root of the end-to-end example. -/
theorem evaluateRuleCondition_vacuous_witness :
    (blankRule.conditions.isUndefined = true ∧
      evaluateRuleCondition emptyHost blankRule customersRoot .null = true) ∧
    ((getProp (.obj []) "and").isUndefined = true ∧
      evaluateRuleCondition emptyHost { blankRule with conditions := .obj [] }
        customersRoot .null = true) ∧
    ((getProp (getProp (.obj [("and", .arr [])]) "and") "0").isUndefined = true ∧
      evaluateRuleCondition emptyHost { blankRule with conditions := .obj [("and", .arr [])] }
        customersRoot .null = true) :=
  ⟨⟨by decide,
    (evaluateRuleCondition_vacuous emptyHost blankRule customersRoot .null).1 (by decide)⟩,
   ⟨by decide,
    (evaluateRuleCondition_vacuous emptyHost { blankRule with conditions := .obj [] }
      customersRoot .null).2.1 (by decide)⟩,
   ⟨by decide,
    (evaluateRuleCondition_vacuous emptyHost
      { blankRule with conditions := .obj [("and", .arr [])] }
      customersRoot .null).2.2.1 (by decide)⟩⟩

/-- Claim C12: only the first condition is honored.  Two rules with the same
first condition get the same result from `evaluateRuleCondition`, on every
data root and message; in particular the result for `{and: [c, ...]}` does
not depend on the elements after `c`.  On the data root `{env:"prod",
tier:"gold", ...}` the rule with the conditions `env == prod` (true) and
`tier == silver` (false), in this order, passes and is run, although a rule
with the second condition alone is skipped. -/
theorem only_first_condition_honored (host : Host) (root msg : JsVal) :
    (∀ r1 r2 : Rule, firstCondition r1 = firstCondition r2 →
      evaluateRuleCondition host r1 root msg = evaluateRuleCondition host r2 root msg) ∧
    (∀ (rule : Rule) (c : JsVal) (rest : List JsVal),
      firstCondition { rule with conditions := .obj [("and", .arr (c :: rest))] } = c) ∧
    (∀ (rule : Rule) (c : JsVal) (rest1 rest2 : List JsVal),
      evaluateRuleCondition host { rule with conditions := .obj [("and", .arr (c :: rest1))] }
          root msg
        = evaluateRuleCondition host { rule with conditions := .obj [("and", .arr (c :: rest2))] }
          root msg) ∧
    (∀ rule : Rule,
      evaluateRuleCondition host
        { rule with conditions := twoConditions envProdCondition tierSilverCondition }
        prodGoldRoot msg = true ∧
      evaluateRuleCondition host
        { rule with conditions := singleCondition tierSilverCondition }
        prodGoldRoot msg = false ∧
      ruleContribution host prodGoldRoot msg
        { rule with type := .str "sheetsExist",
                    conditions := twoConditions envProdCondition tierSilverCondition }
        = doSheetsExist
            { rule with type := .str "sheetsExist",
                        conditions := twoConditions envProdCondition tierSilverCondition }
            prodGoldRoot) := by
  have hfirst : ∀ (rule : Rule) (c : JsVal) (rest : List JsVal),
      firstCondition { rule with conditions := .obj [("and", .arr (c :: rest))] } = c := by
    intro rule c rest
    cases c <;> rfl
  refine ⟨fun r1 r2 h => evaluateRuleCondition_congr host r1 r2 root msg h, hfirst, ?_, ?_⟩
  · intro rule c rest1 rest2
    apply evaluateRuleCondition_congr
    rw [hfirst, hfirst]
  · intro rule
    have h1 : evaluateRuleCondition host
        { rule with conditions := twoConditions envProdCondition tierSilverCondition }
        prodGoldRoot msg = true := rfl
    have h2 : evaluateRuleCondition host
        { rule with conditions := singleCondition tierSilverCondition }
        prodGoldRoot msg = false := rfl
    refine ⟨h1, h2, ?_⟩
    have h3 : evaluateRuleCondition host
        { rule with type := .str "sheetsExist",
                    conditions := twoConditions envProdCondition tierSilverCondition }
        prodGoldRoot msg = true := rfl
    simp [ruleContribution, h3, JsVal.isStr]

/-- The statement of claim C12 at two rules with the first condition
`env == prod`, one of them with the second condition `tier == silver`. -/
theorem only_first_condition_honored_witness :
    firstCondition { blankRule with conditions := twoConditions envProdCondition tierSilverCondition }
      = firstCondition { blankRule with conditions := singleCondition envProdCondition } ∧
    evaluateRuleCondition emptyHost
        { blankRule with conditions := twoConditions envProdCondition tierSilverCondition }
        prodGoldRoot .null
      = evaluateRuleCondition emptyHost
        { blankRule with conditions := singleCondition envProdCondition }
        prodGoldRoot .null :=
  ⟨rfl, (only_first_condition_honored emptyHost prodGoldRoot .null).1
    { blankRule with conditions := twoConditions envProdCondition tierSilverCondition }
    { blankRule with conditions := singleCondition envProdCondition } rfl⟩

/-! ## Paths through arrays -/

theorem walkPath_undefined (ks : List String) : walkPath .undefined ks = .undefined := by
  cases ks <;> simp [walkPath, JsVal.truthy]

/-- Claim C13 as stated fails on the data root `{rows:[{id:1}]}`: the walk of
`rows.0.id` reaches the array `rows` with two segments left and yields the
number 1, the walk of `rows.length` reaches it with one segment left and
yields the number 1; `hasPath` is true of both paths. -/
theorem getByPath_reads_array_members :
    hasPath rowsRoot (.str "rows.0.id") = true ∧
    coerceToString (getByPath rowsRoot (.str "rows.0.id")) = "1" ∧
    hasPath rowsRoot (.str "rows.length") = true ∧
    coerceToString (getByPath rowsRoot (.str "rows.length")) = "1" ∧
    (getProp rowsRoot "rows").isArray = true := by
  decide

theorem proto_walkPath_undefined (realm : Realm) (ks : List String) :
    Proto.walkPath realm (.val .undefined) ks = .val .undefined := by
  cases ks <;> simp [Proto.walkPath, Member.truthy, JsVal.truthy]

theorem proto_walkPath_fn (realm : Realm) (k : String) (ks : List String) :
    Proto.walkPath realm .fn (k :: ks) = .val .undefined := by
  simp [Proto.walkPath, Member.typeofObject]

theorem lookupKey_of_not_own (k : String) (kvs : List (String × JsVal))
    (h : Proto.hasOwnKey k kvs = false) : lookupKey k kvs = .undefined := by
  induction kvs with
  | nil => rfl
  | cons kv t ih =>
    obtain ⟨k0, v0⟩ := kv
    simp only [Proto.hasOwnKey, Bool.or_eq_false_iff, decide_eq_false_iff_not] at h
    simp [lookupKey, h.1, ih h.2]

theorem getMember_eq_getProp (realm : Realm) (v : JsVal) (k : String)
    (hk : k ≠ "__proto__") (hfn : Proto.hasFn realm (.val v) k = false) :
    Proto.getMember realm (.val v) k = .val (getProp v k) := by
  cases v with
  | obj kvs =>
    cases ho : Proto.hasOwnKey k kvs
    · simp [Proto.getMember, Proto.ownMember, ho, hk, hfn, getProp, lookupKey_of_not_own k kvs ho]
    · simp [Proto.getMember, Proto.ownMember, ho, getProp]
  | arr xs =>
    by_cases hl : k = "length"
    · simp [Proto.getMember, Proto.ownMember, hl, getProp]
    · cases hi : parseIndex k with
      | none => simp [Proto.getMember, Proto.ownMember, hl, hi, hk, hfn, getProp]
      | some i =>
        by_cases hlt : i < xs.length
        · simp [Proto.getMember, Proto.ownMember, hl, hi, hlt, getProp]
        · have hge : xs.length ≤ i := Nat.le_of_not_lt hlt
          have hnone : xs[i]? = none := List.getElem?_eq_none hge
          simp [Proto.getMember, Proto.ownMember, hl, hi, hlt, hk, hfn, getProp, hnone]
  | str t =>
    by_cases hl : k = "length"
    · simp [Proto.getMember, Proto.ownMember, hl, getProp]
    · cases hi : parseIndex k with
      | none => simp [Proto.getMember, Proto.ownMember, hl, hi, hk, hfn, getProp]
      | some i =>
        cases hu : (utf16Units t.data)[i]? with
        | none => simp [Proto.getMember, Proto.ownMember, hl, hi, hu, hk, hfn, getProp]
        | some u => simp [Proto.getMember, Proto.ownMember, hl, hi, hu, getProp]
  | undefined => simp [Proto.getMember, Proto.ownMember, hk, hfn, getProp]
  | null => simp [Proto.getMember, Proto.ownMember, hk, hfn, getProp]
  | bool b => simp [Proto.getMember, Proto.ownMember, hk, hfn, getProp]
  | num n => simp [Proto.getMember, Proto.ownMember, hk, hfn, getProp]

/-- Claim C13, amended: `getByPath` walks the segments of the dot path, and
when the walk reaches an array while segments remain it reads the next
segment as a property of the array, own or inherited, and goes on from
there: `length` gives the number of elements, a canonical decimal index
below the length the element at that index, `__proto__` the prototype
`Array.prototype`, the name of an inherited function (such as `map` or
`constructor`) that function, so that `hasPath` holds when the name is the
last segment and the walk ends with `undefined` when segments remain, and a
segment that names no property of the array `undefined`, which ends the walk
with `undefined`. -/
theorem walkPath_through_array (realm : Realm) (xs : List JsVal) (k : String)
    (ks : List String) :
    (∀ (obj : Member) (dotPath : JsVal), dotPath.truthy = true →
      Proto.getByPath realm obj dotPath
        = Proto.walkPath realm obj (splitDots (jsToString dotPath))) ∧
    Proto.walkPath realm (.val (.arr xs)) (k :: ks)
      = Proto.walkPath realm (Proto.getMember realm (.val (.arr xs)) k) ks ∧
    Proto.getMember realm (.val (.arr xs)) "length" = .val (.num (.int xs.length)) ∧
    Proto.getMember realm (.val (.arr xs)) "__proto__" = .proto .array ∧
    (∀ i, k ≠ "length" → parseIndex k = some i → i < xs.length →
      Proto.getMember realm (.val (.arr xs)) k = .val (xs.getD i .undefined)) ∧
    ((Proto.ownMember (.val (.arr xs)) k).isNone = true
      ↔ k ≠ "length" ∧ ∀ i, parseIndex k = some i → xs.length ≤ i) ∧
    ((Proto.ownMember (.val (.arr xs)) k).isNone = true → k ≠ "__proto__" →
      (realm.arrayFns k || realm.objectFns k) = true →
      Proto.getMember realm (.val (.arr xs)) k = .fn ∧
      Proto.walkPath realm (.val (.arr xs)) [k] = .fn ∧
      ∀ k2 ks2, Proto.walkPath realm (.val (.arr xs)) (k :: k2 :: ks2) = .val .undefined) ∧
    ((Proto.ownMember (.val (.arr xs)) k).isNone = true → k ≠ "__proto__" →
      (realm.arrayFns k || realm.objectFns k) = false →
      Proto.walkPath realm (.val (.arr xs)) (k :: ks) = .val .undefined) ∧
    [Proto.hasPath es2023 (.val rowsRoot) (.str "rows.0.id"),
     Proto.hasPath es2023 (.val rowsRoot) (.str "rows.length"),
     Proto.hasPath es2023 (.val rowsRoot) (.str "rows.map"),
     Proto.hasPath es2023 (.val rowsRoot) (.str "rows.1.id"),
     Proto.hasPath es2023 (.val rowsRoot) (.str "rows.map.name"),
     Proto.hasPath es2023 (.val rowsRoot) (.str "rows.first")]
      = [true, true, true, false, false, false] := by
  have hstep : ∀ ks', Proto.walkPath realm (.val (.arr xs)) (k :: ks')
      = Proto.walkPath realm (Proto.getMember realm (.val (.arr xs)) k) ks' := by
    intro ks'
    simp [Proto.walkPath, Member.truthy, Member.typeofObject, JsVal.truthy,
      JsVal.typeofObject]
  have hnone : ∀ o : Option Member, o.isNone = true → o = none := by
    intro o ho
    cases o <;> simp_all
  refine ⟨?_, hstep ks, ?_, ?_, ?_, ?_, ?_, ?_, by decide⟩
  · intro obj dotPath h
    simp [Proto.getByPath, h]
  · simp [Proto.getMember, Proto.ownMember]
  · have hp : parseIndex "__proto__" = none := by decide
    simp [Proto.getMember, Proto.ownMember, hp, Proto.protoOf]
  · intro i hk hi hlt
    simp [Proto.getMember, Proto.ownMember, hk, hi, hlt]
  · by_cases hl : k = "length"
    · simp [Proto.ownMember, hl]
    · cases hi : parseIndex k with
      | none => simp [Proto.ownMember, hl, hi]
      | some i =>
        by_cases hlt : i < xs.length
        · simp [Proto.ownMember, hl, hi, hlt]
        · simp [Proto.ownMember, hl, hi, hlt, Nat.le_of_not_lt hlt]
  · intro hown hk hfn
    have hget : Proto.getMember realm (.val (.arr xs)) k = .fn := by
      simp [Proto.getMember, hnone _ hown, hk, Proto.hasFn, hfn]
    refine ⟨hget, ?_, ?_⟩
    · rw [hstep, hget]
      rfl
    · intro k2 ks2
      rw [hstep, hget, proto_walkPath_fn]
  · intro hown hk hfn
    have hget : Proto.getMember realm (.val (.arr xs)) k = .val .undefined := by
      simp [Proto.getMember, hnone _ hown, hk, Proto.hasFn, hfn]
    rw [hstep, hget, proto_walkPath_undefined]

/-- The statement of claim C13, amended, at the array `[{id:1}]` in an engine
of ECMAScript 2023: the segment `0` gives its first element, the segment
`map` an inherited function, which `hasPath` finds, and the segment `first`
gives `undefined`. -/
theorem walkPath_through_array_witness :
    ("0" ≠ "length" ∧ parseIndex "0" = some 0 ∧
      (Proto.getMember es2023 (.val (.arr [.obj [("id", .num (.int 1))]])) "0").isUndefined
        = false) ∧
    ((Proto.ownMember (.val (.arr [.obj [("id", .num (.int 1))]])) "map").isNone = true ∧
      "map" ≠ "__proto__" ∧ (es2023.arrayFns "map" || es2023.objectFns "map") = true ∧
      (Proto.walkPath es2023 (.val (.arr [.obj [("id", .num (.int 1))]])) ["map"]).isFn
        = true ∧
      Proto.hasPath es2023 (.val rowsRoot) (.str "rows.map") = true) ∧
    ((Proto.ownMember (.val (.arr [.obj [("id", .num (.int 1))]])) "first").isNone = true ∧
      "first" ≠ "__proto__" ∧ (es2023.arrayFns "first" || es2023.objectFns "first") = false ∧
      (Proto.walkPath es2023 (.val (.arr [.obj [("id", .num (.int 1))]]))
        ["first", "id"]).isUndefined = true) :=
  ⟨⟨by decide, by decide, by
      rw [(walkPath_through_array es2023 [.obj [("id", .num (.int 1))]] "0" []).2.2.2.2.1 0
        (by decide) (by decide) (by decide)]
      decide⟩,
   ⟨by decide, by decide, by decide, by
      rw [((walkPath_through_array es2023 [.obj [("id", .num (.int 1))]] "map"
        []).2.2.2.2.2.2.1 (by decide) (by decide) (by decide)).2.1]
      rfl, by decide⟩,
   ⟨by decide, by decide, by decide, by
      rw [(walkPath_through_array es2023 [.obj [("id", .num (.int 1))]] "first"
        ["id"]).2.2.2.2.2.2.2.1 (by decide) (by decide) (by decide)]
      rfl⟩⟩

/-! ## Typed right-hand sides -/

theorem firstCondition_single (rule : Rule) (c : JsVal) :
    firstCondition { rule with conditions := singleCondition c } = c := by
  cases c <;> rfl

/-- Claim C14 as stated fails at the literal "abc": its numeric parse is
`NaN`, and `coerceToString` of `NaN` is the JSON text "null", not "NaN"; so
the comparison with the attribute value "NaN" is false and the comparison
with the attribute value "null" is true. -/
theorem nan_literal_coerces_to_null :
    emptyHost.toNumber (.str "abc") = .nan ∧
    coerceToString (resolveTyped emptyHost .null (.str "num") (.str "abc")) = "null" ∧
    coerceToString (resolveTyped emptyHost .null (.str "num") (.str "abc")) ≠ "NaN" ∧
    coerceToString (.str "NaN") = "NaN" ∧
    applyOp emptyHost (.str "NaN") (.str "==")
      (resolveTyped emptyHost .null (.str "num") (.str "abc")) = false ∧
    applyOp emptyHost (.str "null") (.str "==")
      (resolveTyped emptyHost .null (.str "num") (.str "abc")) = true := by
  decide

/-- Claim C14, amended: for every literal whose numeric parse is `NaN`,
`resolveTyped` with rhsType "num" yields `NaN`, `coerceToString` of that
result is the string "null", and `applyOp(actual, "==", ...)` on it is true
exactly when `coerceToString(actual)` is "null". -/
theorem nan_rhs_compares_as_null (host : Host) (msg literal actual : JsVal)
    (hnan : host.toNumber literal = .nan) :
    resolveTyped host msg (.str "num") literal = .num .nan ∧
    coerceToString (resolveTyped host msg (.str "num") literal) = "null" ∧
    (applyOp host actual (.str "==") (resolveTyped host msg (.str "num") literal) = true
      ↔ coerceToString actual = "null") := by
  have hres : resolveTyped host msg (.str "num") literal = .num .nan := by
    simp [resolveTyped, hnan]
  have hco : coerceToString (.num .nan) = "null" := by decide
  refine ⟨hres, by rw [hres, hco], ?_⟩
  rw [hres]
  simp [applyOp, hco]

/-- The statement of claim C14, amended, at the literal "abc" and the
attribute value "null". -/
theorem nan_rhs_compares_as_null_witness :
    emptyHost.toNumber (.str "abc") = .nan ∧
    coerceToString (resolveTyped emptyHost .null (.str "num") (.str "abc")) = "null" :=
  ⟨by decide,
   (nan_rhs_compares_as_null emptyHost .null (.str "abc") (.str "null") (by decide)).2.1⟩

/-- Claim C15: `resolveTyped` with rhsType "bool" returns the truthiness of
the literal, which is false exactly for `undefined`, `null`, `false`, 0,
`NaN` and the empty string; so it returns true for every non-empty string,
the string "false" included, and a condition `{attribute, operator:"==",
rhsType:"bool", value:"false"}` holds exactly when the attribute value
coerces to the string "true". -/
theorem resolveTyped_bool_truthiness (host : Host) (msg literal : JsVal) :
    resolveTyped host msg (.str "bool") literal = .bool literal.truthy ∧
    (literal.truthy = false ↔
      literal = .undefined ∨ literal = .null ∨ literal = .bool false ∨
      literal = .num (.int 0) ∨ literal = .num .nan ∨ literal = .str "") ∧
    (∀ s : String, s ≠ "" → resolveTyped host msg (.str "bool") (.str s) = .bool true) ∧
    resolveTyped host msg (.str "bool") (.str "false") = .bool true ∧
    (∀ (rule : Rule) (attr root : JsVal),
      evaluateRuleCondition host
          { rule with conditions := singleCondition (boolFalseCondition attr) } root msg
        = decide (coerceToString (getByPath root (JsVal.or attr (.str ""))) = "true")) := by
  refine ⟨rfl, ?_, ?_, rfl, ?_⟩
  · cases literal with
    | bool b => cases b <;> simp [JsVal.truthy]
    | num n =>
      cases n with
      | nan => simp [JsVal.truthy]
      | int i => simp [JsVal.truthy]
    | str s => simp [JsVal.truthy]
    | _ => simp [JsVal.truthy]
  · intro s hs
    simp [resolveTyped, JsVal.truthy, hs]
  · intro rule attr root
    have hrhs : resolveTyped host msg
        (JsVal.or (getProp (boolFalseCondition attr) "rhsType") (.str "str"))
        (getProp (boolFalseCondition attr) "value") = .bool true := rfl
    have hop : JsVal.or (getProp (boolFalseCondition attr) "operator") (.str "==")
        = .str "==" := rfl
    have hattr : getProp (boolFalseCondition attr) "attribute" = attr := rfl
    have htrue : coerceToString (.bool true) = "true" := by decide
    simp only [evaluateRuleCondition, firstCondition_single, hrhs, hop, hattr]
    simp [boolFalseCondition, JsVal.truthy, applyOp, htrue]
    rfl

/-- The statement of claim C15 at the literal "no" and, for the condition,
at the data root `{active: true}`. -/
theorem resolveTyped_bool_truthiness_witness :
    "no" ≠ "" ∧ resolveTyped emptyHost .null (.str "bool") (.str "no") = .bool true ∧
    evaluateRuleCondition emptyHost
      { blankRule with conditions := singleCondition (boolFalseCondition (.str "active")) }
      activeRoot .null = true :=
  ⟨by decide,
   (resolveTyped_bool_truthiness emptyHost .null .null).2.2.1 "no" (by decide),
   by decide⟩

/-! ## Rule files -/

theorem loadRulesFromFile_of_fails (files : Files) (path : String)
    (hfail : LoadFails files path) : loadRulesFromFile files (some path) = none := by
  unfold loadRulesFromFile
  by_cases hguard : (path = "" || !files.existsSync path) = true
  · simp only [hguard, if_true]
  · simp only [hguard]
    rcases hfail with h | h | ⟨txt, hr, hp⟩ | ⟨txt, json, hr, hp, ha, hrules⟩
    · simp [h] at hguard
    · simp [h]
    · simp [hr, hp]
    · simp [hr, hp, ha, hrules]

theorem selectedRules_of_no_cache (node : Node) (h : node.fileRules = none) :
    selectedRules node = node.rules := by
  unfold selectedRules
  cases hu : node.useConfigFile <;> simp [h]

/-- Claim C16 as stated fails on a node in file mode whose cache holds the
two rules of the end-to-end example: a reload of a missing file, of a file
that is not JSON, or of a file of the wrong shape leaves the cache empty
(`null`), and the next invocation selects the editor rules, here none,
instead of the two cached rules. -/
theorem failed_reload_drops_cached_rules :
    (selectedRules fileNode).length = 2 ∧
    (LoadFails noFiles "/data/nodered/rules.json" ∧
      (reloadFileRules noFiles "/data/nodered/rules.json" fileNode).fileRules.isSome = false ∧
      (selectedRules (reloadFileRules noFiles "/data/nodered/rules.json" fileNode)).length = 0) ∧
    (LoadFails brokenFiles "/data/nodered/rules.json" ∧
      (reloadFileRules brokenFiles "/data/nodered/rules.json" fileNode).fileRules.isSome
        = false ∧
      (selectedRules (reloadFileRules brokenFiles "/data/nodered/rules.json" fileNode)).length
        = 0) ∧
    (LoadFails misshapenFiles "/data/nodered/rules.json" ∧
      (reloadFileRules misshapenFiles "/data/nodered/rules.json" fileNode).fileRules.isSome
        = false ∧
      (selectedRules
        (reloadFileRules misshapenFiles "/data/nodered/rules.json" fileNode)).length = 0) := by
  refine ⟨by decide, ⟨Or.inl rfl, by decide, by decide⟩, ⟨?_, by decide, by decide⟩,
    ⟨?_, by decide, by decide⟩⟩
  · exact Or.inr (Or.inr (Or.inl ⟨"oops", rfl, rfl⟩))
  · exact Or.inr (Or.inr (Or.inr ⟨_, _, rfl, rfl, rfl, rfl⟩))

/-- Claim C16, amended: a rule-file load failure clears the cached rules.
For every node state and every reload whose file is missing, cannot be
read, is not JSON or has the wrong shape, `loadRulesFromFile` returns `null`,
the cached rule set after the reload is `null`, and the invocations that
follow select the editor rules of the node. -/
theorem failed_reload_clears_cache (files : Files) (path : String) (node : Node)
    (hfail : LoadFails files path) :
    loadRulesFromFile files (some path) = none ∧
    (reloadFileRules files path node).fileRules = none ∧
    (reloadFileRules files path node).rules = node.rules ∧
    selectedRules (reloadFileRules files path node) = node.rules := by
  have hload := loadRulesFromFile_of_fails files path hfail
  have hcache : (reloadFileRules files path node).fileRules = none := by
    simp [reloadFileRules, hload]
  exact ⟨hload, hcache, rfl, selectedRules_of_no_cache _ hcache⟩

/-- The statement of claim C16, amended, at the node in file mode and a
missing file. -/
theorem failed_reload_clears_cache_witness :
    LoadFails noFiles "/data/nodered/rules.json" ∧
    selectedRules (reloadFileRules noFiles "/data/nodered/rules.json" fileNode)
      = fileNode.rules :=
  ⟨Or.inl rfl,
   (failed_reload_clears_cache noFiles "/data/nodered/rules.json" fileNode (Or.inl rfl)).2.2.2⟩

/-- Claim C17, evaluated on the code: with the trusted root `/data/nodered`
the path `/data/nodered-other/x.json` is accepted, the function returns it,
although it lies in a sibling directory and not inside the trusted root; a
path that leaves the root through `..` is refused. -/
theorem sibling_directory_is_accepted :
    pathResolve noderedSettings.cwd (userDir noderedSettings) = "/data/nodered" ∧
    ensureJsonUnderUserDir noderedSettings (some "/data/nodered-other/x.json")
      = .ok "/data/nodered-other/x.json" ∧
    insideDir "/data/nodered" "/data/nodered-other/x.json" = false ∧
    insideDir "/data/nodered" "/data/nodered/rules/x.json" = true ∧
    ensureJsonUnderUserDir noderedSettings (some "../etc/x.json")
      = .error "Path must be under userDir" := by
  refine ⟨by decide, ?_, by decide, by decide, ?_⟩
  · rfl
  · rfl

/-! ## Level defaulting -/

theorem defaultRuleLevel_idem (defaultLevel : String) (rule : Rule) :
    defaultRuleLevel defaultLevel (defaultRuleLevel defaultLevel rule)
      = defaultRuleLevel defaultLevel rule := by
  unfold defaultRuleLevel
  cases hl : levelTruthy rule.level
  · by_cases hd : defaultLevel = ""
    · simp [hl, hd, levelTruthy]
    · simp [hl, hd, levelTruthy]
  · simp [hl]

theorem map_defaultRuleLevel_idem (defaultLevel : String) (rules : List Rule) :
    (rules.map (defaultRuleLevel defaultLevel)).map (defaultRuleLevel defaultLevel)
      = rules.map (defaultRuleLevel defaultLevel) := by
  simp [List.map_map, Function.comp_def, defaultRuleLevel_idem]

theorem selectedRules_storeRules (node : Node) (rules : List Rule) :
    selectedRules (storeRules node rules) = rules := by
  unfold selectedRules storeRules
  cases hu : node.useConfigFile <;> cases hf : node.fileRules <;> simp [hu, hf]

theorem storeRules_storeRules (node : Node) (rules rules2 : List Rule) :
    storeRules (storeRules node rules) rules2 = storeRules node rules2 := by
  unfold storeRules
  cases hu : node.useConfigFile <;> cases hf : node.fileRules <;> simp [hu, hf]

theorem defaultLevel_storeRules (node : Node) (rules : List Rule) :
    (storeRules node rules).defaultLevel = node.defaultLevel := by
  unfold storeRules
  cases hu : node.useConfigFile <;> cases hf : node.fileRules <;> simp [hu, hf]

theorem onInput_of_object (host : Host) (node : Node) (root msg : JsVal)
    (hroot : isObject root = true) :
    onInput host node root msg
      = (storeRules node ((selectedRules node).map (defaultRuleLevel node.defaultLevel)),
         { logs := ((selectedRules node).map (defaultRuleLevel node.defaultLevel)).flatMap
                     (ruleContribution host root msg),
           counts := summarize
             (((selectedRules node).map (defaultRuleLevel node.defaultLevel)).flatMap
               (ruleContribution host root msg)) }) := by
  simp [onInput, hroot, ruleLoop_eq]

/-- Claim C18: level defaulting is idempotent.  A second evaluation of the
same data root, by the same host on the same message, leaves the node, its
rule list included, as the first evaluation left it and returns the same
logs and counts.  After an evaluation of a valid data root the selected
rules are the former ones with the default filled in where the level was
falsy, and no later evaluation, of whatever data root, changes them. -/
theorem level_defaulting_idempotent (host : Host) (node : Node) (root msg : JsVal) :
    (onInput host (onInput host node root msg).1 root msg).1 = (onInput host node root msg).1 ∧
    (onInput host (onInput host node root msg).1 root msg).2.logs
      = (onInput host node root msg).2.logs ∧
    (onInput host (onInput host node root msg).1 root msg).2.counts
      = (onInput host node root msg).2.counts ∧
    (isObject root = true →
      selectedRules (onInput host node root msg).1
        = (selectedRules node).map (defaultRuleLevel node.defaultLevel)) ∧
    (isObject root = true → ∀ (host2 : Host) (root2 msg2 : JsVal),
      (onInput host2 (onInput host node root msg).1 root2 msg2).1
        = (onInput host node root msg).1) := by
  cases hroot : isObject root
  · have hrun : ∀ n : Node, onInput host n root msg = (n, emptyValidation) := by
      intro n
      simp [onInput, hroot]
    simp [hrun]
  · have hsecond : ∀ (host2 : Host) (root2 msg2 : JsVal),
        (onInput host2 (onInput host node root msg).1 root2 msg2).1
          = (onInput host node root msg).1 := by
      intro host2 root2 msg2
      cases hroot2 : isObject root2
      · simp [onInput, hroot2]
      · rw [onInput_of_object host2 _ root2 msg2 hroot2, onInput_of_object host node root msg hroot]
        simp only [selectedRules_storeRules, defaultLevel_storeRules, map_defaultRuleLevel_idem,
          storeRules_storeRules]
    refine ⟨hsecond host root msg, ?_, ?_, ?_, fun _ => hsecond⟩
    · rw [onInput_of_object host _ root msg hroot, onInput_of_object host node root msg hroot]
      simp only [selectedRules_storeRules, defaultLevel_storeRules, map_defaultRuleLevel_idem]
    · rw [onInput_of_object host _ root msg hroot, onInput_of_object host node root msg hroot]
      simp only [selectedRules_storeRules, defaultLevel_storeRules, map_defaultRuleLevel_idem]
    · intro _
      rw [onInput_of_object host node root msg hroot]
      simp only [selectedRules_storeRules]

/-- The statement of claim C18 on the end-to-end example: after one
evaluation the two rules carry the level "error". -/
theorem level_defaulting_idempotent_witness :
    isObject customersRoot = true ∧
    (selectedRules
        (onInput emptyHost (editorNode customersRules "error") customersRoot .null).1).map
        (fun r => r.level)
      = [some "error", some "error"] ∧
    (onInput emptyHost
        (onInput emptyHost (editorNode customersRules "error") customersRoot .null).1
        (.obj []) .null).1
      = (onInput emptyHost (editorNode customersRules "error") customersRoot .null).1 :=
  ⟨by decide, by decide,
   (level_defaulting_idempotent emptyHost (editorNode customersRules "error") customersRoot
      .null).2.2.2.2 (by decide) emptyHost (.obj []) .null⟩

/-! ## The sample row -/

theorem lookupKey_row_tail (key k : String) (x : JsVal) (t1 t2 : List JsVal)
    (pre post : List (String × JsVal)) :
    lookupKey key (pre ++ (k, .arr (x :: t1)) :: post)
        = lookupKey key (pre ++ (k, .arr (x :: t2)) :: post) ∨
    (lookupKey key (pre ++ (k, .arr (x :: t1)) :: post) = .arr (x :: t1) ∧
      lookupKey key (pre ++ (k, .arr (x :: t2)) :: post) = .arr (x :: t2)) := by
  induction pre with
  | nil =>
    by_cases hk : k = key
    · right
      simp [lookupKey, hk]
    · left
      simp [lookupKey, hk]
  | cons kv pre ih =>
    obtain ⟨k0, v0⟩ := kv
    by_cases hk : k0 = key
    · left
      simp [lookupKey, hk]
    · simpa [lookupKey, hk] using ih

theorem doSheetHasColumns_congr (rule : Rule) (d1 d2 : JsVal)
    (hu : (optGet d1 (sheetNameOf rule)).isUndefined = (optGet d2 (sheetNameOf rule)).isUndefined)
    (hs : sampleRow (optGet d1 (sheetNameOf rule)) = sampleRow (optGet d2 (sheetNameOf rule))) :
    doSheetHasColumns rule d1 = doSheetHasColumns rule d2 := by
  simp [doSheetHasColumns, hu, hs]

/-- Claim C19: `doSheetHasColumns` inspects only the first row of an array
sheet.  Two data roots whose sheet `data[rule.sheet]` is an array with the
same first element give the same logs, whatever the later elements are; so
do two data roots that are equal except for the elements after index 0 of
one array sheet.  On `{Sheet1:[{x:1},{y:2}]}` the column y, present only in
the second row, is reported missing, exactly as on `{Sheet1:[{x:1}]}`. -/
theorem doSheetHasColumns_first_row_only (rule : Rule) :
    (∀ (d1 d2 x : JsVal) (t1 t2 : List JsVal),
      optGet d1 (sheetNameOf rule) = .arr (x :: t1) →
      optGet d2 (sheetNameOf rule) = .arr (x :: t2) →
      doSheetHasColumns rule d1 = doSheetHasColumns rule d2) ∧
    (∀ (pre post : List (String × JsVal)) (k : String) (x : JsVal) (t1 t2 : List JsVal),
      doSheetHasColumns rule (.obj (pre ++ (k, .arr (x :: t1)) :: post))
        = doSheetHasColumns rule (.obj (pre ++ (k, .arr (x :: t2)) :: post))) ∧
    (doSheetHasColumns
        { rule with sheet := .str "Sheet1", requiredColumns := .arr [.str "x", .str "y"] }
        twoRowRoot).map (fun l => l.message)
      = ["Column 'x' found in 'Sheet1'.", "Missing column 'y' in 'Sheet1'."] ∧
    (doSheetHasColumns
        { rule with sheet := .str "Sheet1", requiredColumns := .arr [.str "x", .str "y"] }
        oneRowRoot).map (fun l => l.message)
      = ["Column 'x' found in 'Sheet1'.", "Missing column 'y' in 'Sheet1'."] := by
  have hgen : ∀ (d1 d2 x : JsVal) (t1 t2 : List JsVal),
      optGet d1 (sheetNameOf rule) = .arr (x :: t1) →
      optGet d2 (sheetNameOf rule) = .arr (x :: t2) →
      doSheetHasColumns rule d1 = doSheetHasColumns rule d2 := by
    intro d1 d2 x t1 t2 h1 h2
    apply doSheetHasColumns_congr
    · rw [h1, h2]
      rfl
    · rw [h1, h2, sampleRow_cons, sampleRow_cons]
  have hname : ∀ cols : JsVal,
      sheetNameOf { rule with sheet := .str "Sheet1", requiredColumns := cols }
        = .str "Sheet1" := fun _ => rfl
  refine ⟨hgen, ?_, ?_, ?_⟩
  · intro pre post k x t1 t2
    rcases lookupKey_row_tail (jsToString (sheetNameOf rule)) k x t1 t2 pre post with h | ⟨h1, h2⟩
    · apply doSheetHasColumns_congr <;> simp [optGet, getProp, h]
    · exact hgen _ _ x t1 t2 (by simpa [optGet, getProp] using h1)
        (by simpa [optGet, getProp] using h2)
  · have hrun := fun (cols : JsVal) =>
      doSheetHasColumns_of_object_sample
        { rule with sheet := .str "Sheet1", requiredColumns := cols } twoRowRoot rfl rfl
    rw [hrun]
    simp only [hname, arrayOrEmpty, List.map, columnEntry, makeLog]
    decide
  · have hrun := fun (cols : JsVal) =>
      doSheetHasColumns_of_object_sample
        { rule with sheet := .str "Sheet1", requiredColumns := cols } oneRowRoot rfl rfl
    rw [hrun]
    simp only [hname, arrayOrEmpty, List.map, columnEntry, makeLog]
    decide

/-- The statement of claim C19 at the rule on `Sheet1` and the data roots
`{Sheet1:[{x:1},{y:2}]}` and `{Sheet1:[{x:1}]}`. -/
theorem doSheetHasColumns_first_row_only_witness :
    (optGet twoRowRoot (sheetNameOf sheet1Rule)).isArray = true ∧
    (optGet oneRowRoot (sheetNameOf sheet1Rule)).isArray = true ∧
    doSheetHasColumns sheet1Rule twoRowRoot = doSheetHasColumns sheet1Rule oneRowRoot :=
  ⟨by decide, by decide,
   (doSheetHasColumns_first_row_only sheet1Rule).1 twoRowRoot oneRowRoot
      (.obj [("x", .num (.int 1))]) [.obj [("y", .num (.int 2))]] [] rfl rfl⟩

/-! ## The level of an entry -/

theorem makeLog_level_of_rule_level (rule : Rule) (L level message : String)
    (hL : rule.level = some L) (hne : L ≠ "") :
    (makeLog rule level message).level = toLowerCase L := by
  simp [makeLog, levelOr, hL, hne]

theorem doSheetsExist_levels (rule : Rule) (L : String) (data : JsVal)
    (hL : rule.level = some L) (hne : L ≠ "") :
    ∀ l ∈ doSheetsExist rule data, l.level = toLowerCase L := by
  intro l hl
  simp only [doSheetsExist, doSheetsExistLoop_eq, List.nil_append, List.mem_map] at hl
  obtain ⟨s, _, rfl⟩ := hl
  exact makeLog_level_of_rule_level rule L _ _ hL hne

theorem doSheetHasColumns_levels (rule : Rule) (L : String) (data : JsVal)
    (hL : rule.level = some L) (hne : L ≠ "") :
    ∀ l ∈ doSheetHasColumns rule data, l.level = toLowerCase L := by
  intro l hl
  unfold doSheetHasColumns at hl
  simp only [columnsLoop_eq, List.nil_append] at hl
  split at hl
  · simp only [List.mem_singleton] at hl
    rw [hl]
    exact makeLog_level_of_rule_level rule L _ _ hL hne
  · split at hl
    · simp only [List.mem_singleton] at hl
      rw [hl]
      exact makeLog_level_of_rule_level rule L _ _ hL hne
    · simp only [List.mem_map] at hl
      obtain ⟨c, _, rfl⟩ := hl
      exact makeLog_level_of_rule_level rule L _ _ hL hne

theorem ruleContribution_levels (host : Host) (root msg : JsVal) (rule : Rule) (L : String)
    (hL : rule.level = some L) (hne : L ≠ "") :
    ∀ l ∈ ruleContribution host root msg rule, l.level = toLowerCase L := by
  intro l hl
  unfold ruleContribution at hl
  split at hl
  · split at hl
    · exact doSheetsExist_levels rule L root hL hne l hl
    · split at hl
      · exact doSheetHasColumns_levels rule L root hL hne l hl
      · simp at hl
  · simp at hl

theorem defaultRuleLevel_level (defaultLevel : String) (rule : Rule) (hd : defaultLevel ≠ "") :
    ∃ L, (defaultRuleLevel defaultLevel rule).level = some L ∧ L ≠ "" := by
  unfold defaultRuleLevel
  cases hl : rule.level with
  | none => exact ⟨defaultLevel, by simp [levelTruthy], hd⟩
  | some s =>
    by_cases hs : s = ""
    · exact ⟨defaultLevel, by simp [levelTruthy, hs], hd⟩
    · exact ⟨s, by simp [levelTruthy, hs, hl], hs⟩

theorem nodeDefaultLevel_ne_empty (configured : Option String) :
    nodeDefaultLevel configured ≠ "" := by
  unfold nodeDefaultLevel levelOr
  cases configured with
  | none => decide
  | some s =>
    by_cases hs : s = ""
    · simp [hs]
    · simp [hs]

/-- Claim C20: for a rule whose level is a non-empty string L, `makeLog`
returns an entry whose level is the lower-cased L, whatever the level
argument and the message; the level argument (or "info" when it is empty)
decides only when the rule has no level.  The default level of a node is
never empty, so after defaulting every rule has a non-empty level, and every
entry of the logs the handler returns carries the lower-cased level of the
rule that produced it, for passing and failing checks alike. -/
theorem makeLog_level_is_rule_level (host : Host) (node : Node) (root msg : JsVal) :
    (∀ (rule : Rule) (L level message : String), rule.level = some L → L ≠ "" →
      (makeLog rule level message).level = toLowerCase L) ∧
    (∀ (rule : Rule) (level message : String), levelTruthy rule.level = false →
      (makeLog rule level message).level
        = toLowerCase (if level != "" then level else "info")) ∧
    (∀ configured : Option String, nodeDefaultLevel configured ≠ "") ∧
    (node.defaultLevel ≠ "" →
      ∀ l ∈ (onInput host node root msg).2.logs,
        ∃ r ∈ (selectedRules node).map (defaultRuleLevel node.defaultLevel),
          l ∈ ruleContribution host root msg r ∧
          ∃ L, r.level = some L ∧ L ≠ "" ∧ l.level = toLowerCase L) := by
  refine ⟨makeLog_level_of_rule_level, ?_, nodeDefaultLevel_ne_empty, ?_⟩
  · intro rule level message hl
    cases hlev : rule.level with
    | none => simp [makeLog, levelOr, hlev]
    | some s =>
      have hs : s = "" := by
        simpa [levelTruthy, hlev] using hl
      simp [makeLog, levelOr, hlev, hs]
  · intro hd l hl
    cases hroot : isObject root
    · simp [onInput, hroot, emptyValidation] at hl
    · rw [onInput_of_object host node root msg hroot] at hl
      simp only [List.mem_flatMap] at hl
      obtain ⟨r, hr, hlr⟩ := hl
      refine ⟨r, hr, hlr, ?_⟩
      simp only [List.mem_map] at hr
      obtain ⟨r0, _, rfl⟩ := hr
      obtain ⟨L, hL, hne⟩ := defaultRuleLevel_level node.defaultLevel r0 hd
      exact ⟨L, hL, hne, ruleContribution_levels host root msg _ L hL hne l hlr⟩

/-- The statement of claim C20 at a rule of level "Error": the entry of a
passing check, built with the level argument "info", has level "error". -/
theorem makeLog_level_is_rule_level_witness :
    ({ blankRule with level := some "Error" } : Rule).level = some "Error" ∧ "Error" ≠ "" ∧
    (makeLog { blankRule with level := some "Error" } "info" "Sheet 'A' exists and is not empty.").level
      = toLowerCase "Error" ∧
    toLowerCase "Error" = "error" :=
  ⟨rfl, by decide,
   (makeLog_level_is_rule_level emptyHost (editorNode [] "info") (.obj []) .null).1
      { blankRule with level := some "Error" } "Error" "info"
      "Sheet 'A' exists and is not empty." rfl (by decide),
   by decide⟩

end DataValidationEngine
